import Mathlib

/-!
Verification of the Scumm2026 adventure-game core: a shallow embedding in
Lean 4 of the movement scheduler (CharacterController, NPC), the depth
sorter (DepthManager), the scene/stage manager (StageManager) and the
dialogue engine (DialogueManager), together with theorems settling the
frozen claims about the natural-language specification.

Numeric convention: the source operates on JavaScript numbers; the
embedding uses exact rationals (ℚ), matching the spec's real-valued data
model.  `performance.now()` is modelled by passing the current time as an
explicit argument.  Pixi sprite textures are modelled as the
(direction, frame) pair that selects them.
-/

namespace Scumm

/-- Position: an (x, y) coordinate in scene space (src types.ts). -/
structure Position where
  x : ℚ
  y : ℚ
deriving DecidableEq

/-- The four cardinal facing directions (src SpriteGenerator.ts `Direction`). -/
inductive Direction
  | up
  | down
  | left
  | right
deriving DecidableEq

/-- One edge step of the even-odd ray-casting loop body:
`yi > y !== yj > y && x < ((xj - xi) * (y - yi)) / (yj - yi) + xi`.
The guard forces `pi.y ≠ pj.y`, so the ℚ division is the real one. -/
def edgeCrosses (x y : ℚ) (pv pw : Position) : Bool :=
  (decide (pv.y > y) != decide (pw.y > y)) &&
    decide (x < (pw.x - pv.x) * (y - pv.y) / (pw.y - pv.y) + pv.x)

/-- Body of the JS loop `for (i = 0, j = n - 1; i < n; j = i++)`: fold
over the (vertex i, cyclic predecessor j) pairs in loop order, toggling
`inside` on each crossing edge. -/
def raycastLoop (x y : ℚ) : List (Position × Position) → Bool → Bool
  | [], inside => inside
  | (pv, pw) :: rest, inside =>
      raycastLoop x y rest (if edgeCrosses x y pv pw then !inside else inside)

/-- The (vertex i, cyclic predecessor j) pairs the loop visits, in loop
order: (p₀, pₙ₋₁), (p₁, p₀), …, (pₙ₋₁, pₙ₋₂). -/
def polygonEdges (polygon : List Position) : List (Position × Position) :=
  match polygon.getLast? with
  | none => []
  | some plast => polygon.zip (plast :: polygon.dropLast)

/-- Even-odd point-in-polygon test
(CharacterController.isPointInPolygon / NPC.isPointInPolygon). -/
def isPointInPolygon (x y : ℚ) (polygon : List Position) : Bool :=
  raycastLoop x y (polygonEdges polygon) false

/-- Walkability test shared by CharacterController and NPC
(`isPositionWalkable`): no polygon, or a polygon with fewer than 3
vertices, means every position is allowed. -/
def isPositionWalkable (walkableArea : Option (List Position)) (x y : ℚ) : Bool :=
  match walkableArea with
  | none => true
  | some poly => if poly.length < 3 then true else isPointInPolygon x y poly

/-! ## CharacterController (Movement Scheduler, player character) -/

/-- Walking-animation frames of the player character
(`"idle" | "walk1" | "walk2" | "walk3" | "walk4"`). -/
inductive Frame
  | idle
  | walk1
  | walk2
  | walk3
  | walk4
deriving DecidableEq

/-- CharacterController's `MovementState`. -/
structure MovementState where
  isMoving : Bool
  startPosition : Position
  targetPosition : Position
  startTime : ℚ
  duration : ℚ
deriving DecidableEq

/-- CharacterController's `AnimationState`. -/
structure AnimationState where
  currentFrame : Frame
  frameStartTime : ℚ
  frameDuration : ℚ
  isWalking : Bool
  currentDirection : Direction
deriving DecidableEq

/-- The CharacterController state: sprite position, sprite texture
(modelled as the (direction, frame) pair the source selects from its
sprite sheet), movement and animation state, base speed, optional
walkable polygon and Y-axis damping factor. -/
structure CharacterController where
  pos : Position
  texture : Direction × Frame
  movementState : MovementState
  animationState : AnimationState
  moveSpeed : ℚ
  walkableArea : Option (List Position)
  yMovementFactor : ℚ
deriving DecidableEq

namespace CharacterController

/-- `calculateDirection`: dominant axis of the displacement vector, with
strict `Math.abs(dx) > Math.abs(dy)` choosing horizontal. -/
def calculateDirection (src dst : Position) : Direction :=
  let dx := dst.x - src.x
  let dy := dst.y - src.y
  if |dx| > |dy| then (if dx > 0 then .right else .left)
  else (if dy > 0 then .down else .up)

/-- `updateDirection`: change the facing direction and refresh the sprite
texture only when the direction actually differs. -/
def updateDirection (c : CharacterController) (d : Direction) : CharacterController :=
  if c.animationState.currentDirection ≠ d then
    { c with
      animationState := { c.animationState with currentDirection := d }
      texture := (d, c.animationState.currentFrame) }
  else c

/-- `moveTo(targetX, targetY)`: reject unwalkable targets, otherwise
compute per-axis travel times (X at `moveSpeed`, Y at
`moveSpeed * yMovementFactor`), take the max as the duration, set the
facing direction from the displacement and start walking.  `now` models
`performance.now()`. -/
def moveTo (c : CharacterController) (targetX targetY now : ℚ) :
    Bool × CharacterController :=
  if !isPositionWalkable c.walkableArea targetX targetY then (false, c)
  else
    let startX := c.pos.x
    let startY := c.pos.y
    let deltaX := targetX - startX
    let deltaY := targetY - startY
    let xSpeed := c.moveSpeed
    let ySpeed := c.moveSpeed * c.yMovementFactor
    let xTime := |deltaX| / xSpeed
    let yTime := |deltaY| / ySpeed
    let duration := max xTime yTime
    let c1 := { c with
      movementState :=
        { isMoving := true
          startPosition := ⟨startX, startY⟩
          targetPosition := ⟨targetX, targetY⟩
          startTime := now
          duration := duration * 1000 } }
    let newDirection := calculateDirection ⟨startX, startY⟩ ⟨targetX, targetY⟩
    let c2 := updateDirection c1 newDirection
    let c3 := { c2 with
      animationState := { c2.animationState with
        isWalking := true
        frameStartTime := now } }
    (true, c3)

/-- `updateMovement(currentTime)`: linear interpolation by
`min(elapsed / duration, 1.0)`; on progress ≥ 1 the movement ends, the
animation returns to the idle frame in the current facing direction.
(The JS `elapsed / duration` needs `duration ≠ 0` to be a real division;
theorems about arrival assume a positive duration.) -/
def updateMovement (c : CharacterController) (currentTime : ℚ) : CharacterController :=
  if !c.movementState.isMoving then c
  else
    let elapsed := currentTime - c.movementState.startTime
    let progress := min (elapsed / c.movementState.duration) 1
    let x := c.movementState.startPosition.x +
      (c.movementState.targetPosition.x - c.movementState.startPosition.x) * progress
    let y := c.movementState.startPosition.y +
      (c.movementState.targetPosition.y - c.movementState.startPosition.y) * progress
    let c1 := { c with pos := ⟨x, y⟩ }
    if progress ≥ 1 then
      { c1 with
        movementState := { c1.movementState with isMoving := false }
        animationState := { c1.animationState with
          isWalking := false
          currentFrame := .idle }
        texture := (c1.animationState.currentDirection, .idle) }
    else c1

/-- Successor frame of the 4-frame walking cycle in `updateAnimation`. -/
def nextWalkFrame : Frame → Frame
  | .idle => .walk1
  | .walk4 => .walk1
  | .walk1 => .walk2
  | .walk2 => .walk3
  | .walk3 => .walk4

/-- `updateAnimation(currentTime)`: advance the walking cycle (or fall
back to idle) once the per-frame duration has elapsed. -/
def updateAnimation (c : CharacterController) (currentTime : ℚ) : CharacterController :=
  let elapsed := currentTime - c.animationState.frameStartTime
  if elapsed ≥ c.animationState.frameDuration then
    let newFrame :=
      if c.animationState.isWalking then nextWalkFrame c.animationState.currentFrame
      else .idle
    { c with
      animationState := { c.animationState with
        currentFrame := newFrame
        frameStartTime := currentTime }
      texture := (c.animationState.currentDirection, newFrame) }
  else c

/-- `update(currentTime)`: one tick = movement update then animation update. -/
def update (c : CharacterController) (currentTime : ℚ) : CharacterController :=
  updateAnimation (updateMovement c currentTime) currentTime

/-- `isMoving()`. -/
def isMoving (c : CharacterController) : Bool :=
  c.movementState.isMoving

end CharacterController

/-! ## NPC (Movement Scheduler, non-player characters) -/

/-- NPC animation frames (`"idle" | "walk1" | "walk2" | "talk"`). -/
inductive NPCFrame
  | idle
  | walk1
  | walk2
  | talk
deriving DecidableEq

/-- `NPCAnimationState`. -/
structure NPCAnimationState where
  currentFrame : NPCFrame
  frameStartTime : ℚ
  frameDuration : ℚ
  isWalking : Bool
deriving DecidableEq

/-- The NPC state.  `dataPos` mirrors `data.position`, which
`updateMovement` keeps in sync with the sprite position.  NPCs have a
fixed facing direction; their texture is the (direction, frame) pair. -/
structure NPC where
  pos : Position
  dataPos : Position
  texture : Direction × NPCFrame
  movementState : MovementState
  animationState : NPCAnimationState
  moveSpeed : ℚ
  walkableArea : Option (List Position)
  facingDirection : Direction
deriving DecidableEq

namespace NPC

/-- `NPC.moveTo(targetX, targetY)`: reject unwalkable targets; no-op
(returning true) when the target is within the 2-pixel threshold on both
axes; otherwise start a movement whose duration is the Euclidean
distance over `moveSpeed`.  `Math.sqrt` is irrational-valued, so the
embedding takes the square-root function as a parameter `sqrtFn`; no
verified property depends on its value. -/
def moveTo (sqrtFn : ℚ → ℚ) (n : NPC) (targetX targetY now : ℚ) : Bool × NPC :=
  if !isPositionWalkable n.walkableArea targetX targetY then (false, n)
  else
    let currentX := n.pos.x
    let currentY := n.pos.y
    if |currentX - targetX| < 2 ∧ |currentY - targetY| < 2 then (true, n)
    else
      let deltaX := targetX - currentX
      let deltaY := targetY - currentY
      let distance := sqrtFn (deltaX * deltaX + deltaY * deltaY)
      let duration := distance / n.moveSpeed * 1000
      let n1 := { n with
        movementState :=
          { isMoving := true
            startPosition := ⟨currentX, currentY⟩
            targetPosition := ⟨targetX, targetY⟩
            startTime := now
            duration := duration } }
      let n2 := { n1 with
        animationState := { n1.animationState with
          isWalking := true
          frameStartTime := now } }
      (true, n2)

/-- `NPC.updateMovement(currentTime)`: linear interpolation, syncing
`data.position`, snapping to the target and going idle at progress ≥ 1. -/
def updateMovement (n : NPC) (currentTime : ℚ) : NPC :=
  if !n.movementState.isMoving then n
  else
    let elapsed := currentTime - n.movementState.startTime
    let progress := min (elapsed / n.movementState.duration) 1
    let x := n.movementState.startPosition.x +
      (n.movementState.targetPosition.x - n.movementState.startPosition.x) * progress
    let y := n.movementState.startPosition.y +
      (n.movementState.targetPosition.y - n.movementState.startPosition.y) * progress
    let n1 := { n with pos := ⟨x, y⟩, dataPos := ⟨x, y⟩ }
    if progress ≥ 1 then
      { n1 with
        movementState := { n1.movementState with isMoving := false }
        animationState := { n1.animationState with
          isWalking := false
          currentFrame := .idle }
        texture := (n1.facingDirection, .idle) }
    else n1

/-- `NPC.updateAnimation(currentTime)`: while not walking, force idle
unless talking; while walking, alternate walk1/walk2. -/
def updateAnimation (n : NPC) (currentTime : ℚ) : NPC :=
  if !n.animationState.isWalking then
    if n.animationState.currentFrame ≠ .idle ∧ n.animationState.currentFrame ≠ .talk then
      { n with
        animationState := { n.animationState with currentFrame := .idle }
        texture := (n.facingDirection, .idle) }
    else n
  else
    let elapsed := currentTime - n.animationState.frameStartTime
    if elapsed ≥ n.animationState.frameDuration then
      if n.animationState.currentFrame = .walk1 then
        { n with
          animationState := { n.animationState with
            currentFrame := .walk2
            frameStartTime := currentTime }
          texture := (n.facingDirection, .walk2) }
      else
        { n with
          animationState := { n.animationState with
            currentFrame := .walk1
            frameStartTime := currentTime }
          texture := (n.facingDirection, .walk1) }
    else n

/-- `NPC.update(currentTime)`. -/
def update (n : NPC) (currentTime : ℚ) : NPC :=
  updateAnimation (updateMovement n currentTime) currentTime

/-- `NPC.isMoving()`. -/
def isMoving (n : NPC) : Bool :=
  n.movementState.isMoving

end NPC

/-! ## Concrete fixtures used by witnesses -/

/-- A triangle walkable area with vertices (0,0), (10,0), (0,10). -/
def demoPolygon : List Position := [⟨0, 0⟩, ⟨10, 0⟩, ⟨0, 10⟩]

/-- A player character standing at (1,1) inside `demoPolygon`, idle,
facing down, at the source's default speed 180 and damping 1/2. -/
def demoChar : CharacterController :=
  { pos := ⟨1, 1⟩
    texture := (.down, .idle)
    movementState :=
      { isMoving := false, startPosition := ⟨1, 1⟩, targetPosition := ⟨1, 1⟩
        startTime := 0, duration := 0 }
    animationState :=
      { currentFrame := .idle, frameStartTime := 0, frameDuration := 250
        isWalking := false, currentDirection := .down }
    moveSpeed := 180
    walkableArea := some demoPolygon
    yMovementFactor := 1/2 }

/-- A player character at (0,0) with no walkable-area restriction. -/
def demoCharFree : CharacterController :=
  { demoChar with
    pos := ⟨0, 0⟩
    movementState := { demoChar.movementState with
      startPosition := ⟨0, 0⟩, targetPosition := ⟨0, 0⟩ }
    walkableArea := none }

/-- An NPC standing at (1,1) inside `demoPolygon`, idle, facing down, at
the source's NPC speed 120. -/
def demoNPC : NPC :=
  { pos := ⟨1, 1⟩
    dataPos := ⟨1, 1⟩
    texture := (.down, .idle)
    movementState :=
      { isMoving := false, startPosition := ⟨1, 1⟩, targetPosition := ⟨1, 1⟩
        startTime := 0, duration := 0 }
    animationState :=
      { currentFrame := .idle, frameStartTime := 0, frameDuration := 300
        isWalking := false }
    moveSpeed := 120
    walkableArea := some demoPolygon
    facingDirection := .down }

/-! ## Dialogue Engine (DialogueTree.ts / DialogueManager) -/

/-- JS flag values: `boolean | string | number`. -/
inductive FlagValue
  | b (v : Bool)
  | s (v : String)
  | n (v : ℚ)
deriving DecidableEq

/-- `DialogueCondition.type`: `"inventory" | "flag" | "always"`. -/
inductive ConditionType
  | inventory
  | flag
  | always
deriving DecidableEq

/-- `DialogueCondition`: optional key (inventory item id or flag name)
and optional expected value. -/
structure DialogueCondition where
  type : ConditionType
  key : Option String
  value : Option FlagValue
deriving DecidableEq

/-- `DialogueResponse`: a selectable player response with optional next
node, gating conditions and effects. -/
structure DialogueResponse where
  id : String
  text : String
  nextNodeId : Option String
  conditions : Option (List DialogueCondition)
  setFlag : Option (String × FlagValue)
  removeItem : Option String
  addItem : Option String
deriving DecidableEq

/-- `DialogueNode`: NPC line plus response options and optional
availability conditions. -/
structure DialogueNode where
  id : String
  npcText : String
  responses : List DialogueResponse
  conditions : Option (List DialogueCondition)
deriving DecidableEq

/-- `DialogueTree`: per-NPC tree with a start node and a node map. -/
structure DialogueTree where
  npcId : String
  startNodeId : String
  nodes : List (String × DialogueNode)
deriving DecidableEq

/-- `DialogueState`. -/
structure DialogueState where
  isActive : Bool
  currentTree : Option DialogueTree
  currentNodeId : Option String
  npcId : Option String
  npcPosition : Option Position
deriving DecidableEq

/-- The DialogueManager state: registered trees, current dialogue state
and the session-wide flag map. -/
structure DialogueManager where
  dialogueTrees : List (String × DialogueTree)
  currentState : DialogueState
  gameFlags : List (String × FlagValue)
deriving DecidableEq

/-- JS `Map.get`: first (unique) binding of the key. -/
def mapLookup {α : Type} (m : List (String × α)) (k : String) : Option α :=
  (m.find? (fun p => p.1 == k)).map (fun p => p.2)

/-- JS `Map.set`: replace the binding if the key exists, else append. -/
def mapSet {α : Type} (m : List (String × α)) (k : String) (v : α) :
    List (String × α) :=
  if (m.find? (fun p => p.1 == k)).isSome then
    m.map (fun p => if p.1 == k then (k, v) else p)
  else m ++ [(k, v)]

/-- JS `Set.add` (the caller-owned inventory set). -/
def setAdd (s : List String) (k : String) : List String :=
  if s.contains k then s else s ++ [k]

/-- JS `Set.delete`. -/
def setDelete (s : List String) (k : String) : List String :=
  s.erase k

namespace DialogueManager

/-- `getFlag(key)`. -/
def getFlag (dm : DialogueManager) (key : String) : Option FlagValue :=
  mapLookup dm.gameFlags key

/-- `setFlag(key, value)`. -/
def setFlag (dm : DialogueManager) (key : String) (value : FlagValue) :
    DialogueManager :=
  { dm with gameFlags := mapSet dm.gameFlags key value }

/-- `checkConditions(conditions?, inventory?)`: vacuously true for a
missing or empty list; otherwise every condition must hold.  A JS falsy
key (`undefined` or the empty string) fails flag and inventory
conditions; a missing `inventory` argument fails every inventory
condition; flag comparison is JS `===` on the possibly-undefined stored
value. -/
def checkConditions (flags : List (String × FlagValue))
    (conditions : Option (List DialogueCondition))
    (inventory : Option (List String)) : Bool :=
  match conditions with
  | none => true
  | some cs =>
    if cs.isEmpty then true
    else cs.all (fun c =>
      match c.type with
      | .always => true
      | .flag =>
        match c.key with
        | none => false
        | some k => if k == "" then false else mapLookup flags k == c.value
      | .inventory =>
        match c.key, inventory with
        | some k, some inv => if k == "" then false else inv.contains k
        | _, _ => false)

/-- `startDialogue(npcId, npcPosition)`: requires a registered tree and
an existing start node whose conditions hold; note the source calls
`checkConditions(startNode.conditions)` with NO inventory argument. -/
def startDialogue (dm : DialogueManager) (npcId : String) (npcPosition : Position) :
    Option DialogueNode × DialogueManager :=
  match mapLookup dm.dialogueTrees npcId with
  | none => (none, dm)
  | some tree =>
    match mapLookup tree.nodes tree.startNodeId with
    | none => (none, dm)
    | some startNode =>
      if !(checkConditions dm.gameFlags startNode.conditions none) then (none, dm)
      else
        (some startNode,
         { dm with currentState :=
            { isActive := true
              currentTree := some tree
              currentNodeId := some tree.startNodeId
              npcId := some npcId
              npcPosition := some npcPosition } })

/-- `getCurrentNode()`. -/
def getCurrentNode (dm : DialogueManager) : Option DialogueNode :=
  if !dm.currentState.isActive then none
  else
    match dm.currentState.currentTree, dm.currentState.currentNodeId with
    | some tree, some nodeId => mapLookup tree.nodes nodeId
    | _, _ => none

/-- `endDialogue()`: reset to `{ isActive: false }`. -/
def endDialogue (dm : DialogueManager) : DialogueManager :=
  { dm with currentState :=
      { isActive := false
        currentTree := none
        currentNodeId := none
        npcId := none
        npcPosition := none } }

/-- `chooseResponse(responseId, inventory)`: validate the id against the
current node's responses and its conditions; then apply effects (set
flag, remove item, add item) and move to the next node if its conditions
hold, ending the dialogue otherwise.  Returns the displayed node (or
null) together with the updated manager and inventory (the source
mutates the caller's Set in place). -/
def chooseResponse (dm : DialogueManager) (responseId : String)
    (inventory : List String) :
    Option DialogueNode × DialogueManager × List String :=
  match getCurrentNode dm, dm.currentState.currentTree with
  | some currentNode, some tree =>
    match currentNode.responses.find? (fun r => r.id == responseId) with
    | none => (none, dm, inventory)
    | some response =>
      if !(checkConditions dm.gameFlags response.conditions (some inventory)) then
        (none, dm, inventory)
      else
        let dm1 :=
          match response.setFlag with
          | some kv => setFlag dm kv.1 kv.2
          | none => dm
        let inv1 :=
          match response.removeItem with
          | some item => setDelete inventory item
          | none => inventory
        let inv2 :=
          match response.addItem with
          | some item => setAdd inv1 item
          | none => inv1
        match response.nextNodeId with
        | some nextId =>
          match mapLookup tree.nodes nextId with
          | some nextNode =>
            if checkConditions dm1.gameFlags nextNode.conditions (some inv2) then
              (some nextNode,
               { dm1 with currentState :=
                  { dm1.currentState with currentNodeId := some nextId } },
               inv2)
            else (none, endDialogue dm1, inv2)
          | none => (none, endDialogue dm1, inv2)
        | none => (none, endDialogue dm1, inv2)
  | _, _ => (none, dm, inventory)

/-- `isDialogueActive()`. -/
def isDialogueActive (dm : DialogueManager) : Bool :=
  dm.currentState.isActive

end DialogueManager

/-- A dialogue response gated on possessing the golden key. -/
def demoResponse : DialogueResponse :=
  { id := "r1"
    text := "Here is the key."
    nextNodeId := none
    conditions := some [{ type := .inventory, key := some "golden-key", value := none }]
    setFlag := none
    removeItem := none
    addItem := none }

/-- A dialogue node with the single response `demoResponse`. -/
def demoNode : DialogueNode :=
  { id := "start"
    npcText := "What will it be?"
    responses := [demoResponse]
    conditions := none }

/-- A dialogue tree for the bartender whose start node is `demoNode`. -/
def demoTree : DialogueTree :=
  { npcId := "bartender"
    startNodeId := "start"
    nodes := [("start", demoNode)] }

/-- A dialogue manager mid-dialogue with the bartender at `demoNode`. -/
def demoDM : DialogueManager :=
  { dialogueTrees := [("bartender", demoTree)]
    currentState :=
      { isActive := true
        currentTree := some demoTree
        currentNodeId := some "start"
        npcId := some "bartender"
        npcPosition := some ⟨756, 659⟩ }
    gameFlags := [] }

/-- A start node gated on an inventory condition (for C10). -/
def invNode : DialogueNode :=
  { id := "s"
    npcText := "Psst, got the key?"
    responses := []
    conditions := some [{ type := .inventory, key := some "golden-key", value := none }] }

/-- A tree whose start node is `invNode`. -/
def invTree : DialogueTree :=
  { npcId := "merchant"
    startNodeId := "s"
    nodes := [("s", invNode)] }

/-- An inactive dialogue manager holding `invTree`. -/
def invDM : DialogueManager :=
  { dialogueTrees := [("merchant", invTree)]
    currentState :=
      { isActive := false
        currentTree := none
        currentNodeId := none
        npcId := none
        npcPosition := none }
    gameFlags := [] }

/-! ## Scene/Stage Manager (Stage.ts / StageManager / ObjectManager /
StageOverlayAssets)

The embedding models the game's wired configuration: the NPC manager,
depth manager and renderer are set (as `Game` wires them), so the
`if (this.npcManager)` / `if (this.depthManager)` / `if (this.renderer)`
guards are taken.  The depth registry is abstracted to its key set
(`depthIds`), visual handles to presence booleans, and the asset manager
to the list of loaded asset keys. -/

/-- The six interaction verbs (`ActionType`). -/
inductive ActionType
  | walk
  | use
  | get
  | talk
  | look
  | open
deriving DecidableEq

/-- `InteractiveObjectData` (InteractiveObject.ts). -/
structure InteractiveObjectData where
  id : String
  name : String
  position : Position
  width : ℚ
  height : ℚ
  description : String
  defaultAction : ActionType
  polygon : Option (List Position)
deriving DecidableEq

/-- `NPCData` (NPC.ts). -/
structure NPCData where
  id : String
  name : String
  position : Position
  description : String
  dialogues : Option (List String)
  defaultAction : Option String
  spriteType : Option String
  interactionPoint : Option Position
  facingDirection : Option Direction
deriving DecidableEq

/-- `PerspectiveScale` (Stage.ts). -/
structure PerspectiveScale where
  minY : ℚ
  maxY : ℚ
  minScale : ℚ
  maxScale : ℚ
deriving DecidableEq

/-- `PerspectiveMovement` (Stage.ts). -/
structure PerspectiveMovement where
  yMovementFactor : ℚ
deriving DecidableEq

/-- `Stage` (Stage.ts). -/
structure Stage where
  id : String
  name : String
  backgroundAssetKey : String
  backgroundWidth : ℚ
  backgroundHeight : ℚ
  walkableArea : List Position
  objects : List InteractiveObjectData
  npcs : Option (List NPCData)
  characterStartPosition : Position
  keyPosition : Option Position
  interactionPoints : Option (List (String × Position))
  perspectiveScale : Option PerspectiveScale
  perspectiveMovement : Option PerspectiveMovement
deriving DecidableEq

/-- `StageTransition` (Stage.ts). -/
structure StageTransition where
  fromStageId : String
  toStageId : String
  triggerObjectId : String
  targetPosition : Option Position
deriving DecidableEq

/-- Overlay z-ordering kinds (StageOverlayAssets.ts). -/
inductive OverlayZIndexType
  | foreground
  | inline
  | background
deriving DecidableEq

/-- The identifying fields of an `OverlayAssetDefinition`
(StageOverlayAssets.ts); texture/geometry data is external. -/
structure OverlayAssetDefinition where
  id : String
  objectId : String
  stageName : String
  zIndexType : OverlayZIndexType
deriving DecidableEq

/-- `StageOverlayAssets.getAllOverlayAssets()`: the static overlay
catalog. -/
def getAllOverlayAssets : List OverlayAssetDefinition :=
  [{ id := "building-entrance-open-door"
     objectId := "building-entrance"
     stageName := "cyberpunk-street"
     zIndexType := .background },
   { id := "mechstore-stool"
     objectId := "stool-small"
     stageName := "test-indoor"
     zIndexType := .inline }]

/-- `StageOverlayAssets.getStageOverlayAssets(stageId)`. -/
def getStageOverlayAssets (stageId : String) : List OverlayAssetDefinition :=
  getAllOverlayAssets.filter (fun a => a.stageName == stageId)

/-- The StageManager state together with its collaborators' registries:
stage and transition catalogs, current stage, sprite-presence flags,
the per-stage removed-object sets, the ObjectManager registry, the NPC
id registry, the overlay registry, the depth-registry key set and the
loaded asset keys. -/
structure StageManagerState where
  stages : List (String × Stage)
  transitions : List StageTransition
  currentStage : Option Stage
  backgroundSprite : Bool
  keySprite : Bool
  removedObjects : List (String × List String)
  objects : List (String × InteractiveObjectData)
  npcIds : List String
  overlayIds : List String
  depthIds : List String
  assets : List String
deriving DecidableEq

/-- `DepthManager.registerSprite` as seen from the StageManager model:
a fresh id is appended to the registry key set. -/
def registerDepth (ids : List String) (id : String) : List String :=
  if ids.contains id then ids else ids ++ [id]

namespace StageManagerState

/-- `addStage(stage)`: keyed by `stage.id`. -/
def addStage (sm : StageManagerState) (stage : Stage) : StageManagerState :=
  { sm with stages := mapSet sm.stages stage.id stage }

/-- `addTransition(transition)`: a plain `Array.push`. -/
def addTransition (sm : StageManagerState) (t : StageTransition) : StageManagerState :=
  { sm with transitions := sm.transitions ++ [t] }

/-- `findTransition(fromStageId, triggerObjectId)`: `Array.find` on both
key fields. -/
def findTransition (sm : StageManagerState) (fromStageId triggerObjectId : String) :
    Option StageTransition :=
  sm.transitions.find? (fun t =>
    t.fromStageId == fromStageId && t.triggerObjectId == triggerObjectId)

/-- `markObjectAsRemoved(stageId, objectId)`: create the stage's set on
demand, then add the object id. -/
def markObjectAsRemoved (sm : StageManagerState) (stageId objectId : String) :
    StageManagerState :=
  let m0 := if (mapLookup sm.removedObjects stageId).isSome then sm.removedObjects
            else mapSet sm.removedObjects stageId []
  let s := (mapLookup m0 stageId).getD []
  { sm with removedObjects := mapSet m0 stageId (setAdd s objectId) }

/-- `isObjectRemoved(stageId, objectId)`. -/
def isObjectRemoved (sm : StageManagerState) (stageId objectId : String) : Bool :=
  match mapLookup sm.removedObjects stageId with
  | some s => s.contains objectId
  | none => false

/-- `cleanupCurrentStage()`: unregister the background, key-sprite and
current stage's overlay depth entries, destroy the background and key
sprites, clear the NPC and overlay registries.  (`currentStage` and the
removed-object sets are untouched.) -/
def cleanupCurrentStage (sm : StageManagerState) : StageManagerState :=
  let d1 := if sm.backgroundSprite then sm.depthIds.erase "background" else sm.depthIds
  let d2 := if sm.keySprite then d1.erase "key-sprite" else d1
  let d3 :=
    match sm.currentStage with
    | some stage =>
      (getStageOverlayAssets stage.id).foldl
        (fun d a => d.erase ("overlay-" ++ a.id)) d2
    | none => d2
  { sm with
    backgroundSprite := false
    keySprite := false
    npcIds := []
    overlayIds := []
    depthIds := d3 }

/-- `loadBackground(stage)`: fails when the background asset key is not
loaded; otherwise creates the background sprite and registers it with
the depth manager. -/
def loadBackground (sm : StageManagerState) (stage : Stage) :
    Bool × StageManagerState :=
  if !sm.assets.contains stage.backgroundAssetKey then (false, sm)
  else
    (true,
     { sm with
       backgroundSprite := true
       depthIds := registerDepth sm.depthIds "background" })

/-- `loadObjects(stage)`: clear the ObjectManager, then add the stage's
objects whose ids are not in the stage's removed set. -/
def loadObjects (sm : StageManagerState) (stage : Stage) : StageManagerState :=
  { sm with
    objects := stage.objects.foldl
      (fun acc obj =>
        if !sm.isObjectRemoved stage.id obj.id then mapSet acc obj.id obj else acc)
      [] }

/-- `loadKeySprite(stage)`: skipped when there is no key position or the
golden key was removed from this stage. -/
def loadKeySprite (sm : StageManagerState) (stage : Stage) : StageManagerState :=
  if stage.keyPosition.isNone then sm
  else if sm.isObjectRemoved stage.id "golden-key" then sm
  else
    { sm with
      keySprite := true
      depthIds := registerDepth sm.depthIds "key-sprite" }

/-- `loadNPCs(stage)`: unregister existing NPC depth entries, clear the
NPC registry, then add and depth-register the stage's NPCs. -/
def loadNPCs (sm : StageManagerState) (stage : Stage) : StageManagerState :=
  match stage.npcs with
  | none => sm
  | some npcs =>
    let d := sm.npcIds.foldl (fun d id => d.erase ("npc-" ++ id)) sm.depthIds
    npcs.foldl
      (fun s npc =>
        { s with
          npcIds := s.npcIds ++ [npc.id]
          depthIds := registerDepth s.depthIds ("npc-" ++ npc.id) })
      { sm with depthIds := d, npcIds := [] }

/-- `loadStageOverlays(stage)`: add each catalog overlay of the stage to
the overlay registry, then depth-register each one. -/
def loadStageOverlays (sm : StageManagerState) (stage : Stage) : StageManagerState :=
  let overlayAssets : List OverlayAssetDefinition := getStageOverlayAssets stage.id
  if overlayAssets.isEmpty then sm
  else
    let sm1 := { sm with
      overlayIds := sm.overlayIds ++
        overlayAssets.map (fun (a : OverlayAssetDefinition) => a.id) }
    { sm1 with
      depthIds := overlayAssets.foldl
        (fun d (a : OverlayAssetDefinition) => registerDepth d ("overlay-" ++ a.id))
        sm1.depthIds }

/-- `loadStage(stageId)`: unknown id fails immediately (before any
teardown); otherwise tear down the current stage, then load background
(failure point), objects, key sprite, NPCs and overlays, and make the
stage current. -/
def loadStage (sm : StageManagerState) (stageId : String) :
    Bool × StageManagerState :=
  match mapLookup sm.stages stageId with
  | none => (false, sm)
  | some stage =>
    let sm1 := cleanupCurrentStage sm
    match loadBackground sm1 stage with
    | (false, sm2) => (false, sm2)
    | (true, sm2) =>
      let sm3 := loadObjects sm2 stage
      let sm4 := if stage.keyPosition.isSome then loadKeySprite sm3 stage else sm3
      let sm5 := if stage.npcs.isSome then loadNPCs sm4 stage else sm4
      let sm6 := loadStageOverlays sm5 stage
      (true, { sm6 with currentStage := some stage })

/-- The success path of `loadStage` after the background check, written
out as one definition (cleanup, background registration, objects, key
sprite, NPCs, overlays, current-stage switch) so that theorems can
rewrite `loadStage` to it. -/
def loadStageSuccess (sm : StageManagerState) (stage : Stage) : StageManagerState :=
  let sm2 := { sm.cleanupCurrentStage with
    backgroundSprite := true
    depthIds := registerDepth sm.cleanupCurrentStage.depthIds "background" }
  let sm3 := loadObjects sm2 stage
  let sm4 := if stage.keyPosition.isSome then loadKeySprite sm3 stage else sm3
  let sm5 := if stage.npcs.isSome then loadNPCs sm4 stage else sm4
  let sm6 := loadStageOverlays sm5 stage
  { sm6 with currentStage := some stage }

/-- `transitionToStage(toStageId, …)`: rejects an unknown target, else
delegates to `loadStage` (the character-position computation mutates no
StageManager state). -/
def transitionToStage (sm : StageManagerState) (toStageId : String) :
    Bool × StageManagerState :=
  match mapLookup sm.stages toStageId with
  | none => (false, sm)
  | some _ => loadStage sm toStageId

/-- `removeKeySprite()`. -/
def removeKeySprite (sm : StageManagerState) : StageManagerState :=
  if sm.keySprite then
    { sm with
      keySprite := false
      depthIds := sm.depthIds.erase "key-sprite" }
  else sm

/-- `destroy()`: cleanup, then clear the stage and transition catalogs
(the removed-object sets are not cleared). -/
def destroy (sm : StageManagerState) : StageManagerState :=
  let sm1 := cleanupCurrentStage sm
  { sm1 with stages := [], transitions := [] }

end StageManagerState

/-- The mutating StageManager operations, for stating that the
removed-object sets only grow. -/
inductive StageOp
  | addStage (stage : Stage)
  | addTransition (t : StageTransition)
  | markRemoved (stageId objectId : String)
  | load (stageId : String)
  | transition (toStageId : String)
  | removeKey
  | destroy

/-- Apply one StageManager operation. -/
def applyStageOp (sm : StageManagerState) : StageOp → StageManagerState
  | .addStage stage => sm.addStage stage
  | .addTransition t => sm.addTransition t
  | .markRemoved stageId objectId => sm.markObjectAsRemoved stageId objectId
  | .load stageId => (sm.loadStage stageId).2
  | .transition toStageId => (sm.transitionToStage toStageId).2
  | .removeKey => sm.removeKeySprite
  | .destroy => sm.destroy

/-- Apply a sequence of StageManager operations. -/
def applyStageOps (sm : StageManagerState) (ops : List StageOp) : StageManagerState :=
  ops.foldl applyStageOp sm

/-- The test-indoor exit door object. -/
def exitDoorObj : InteractiveObjectData :=
  { id := "exit-door"
    name := "exit door"
    position := ⟨50, 400⟩
    width := 100
    height := 150
    description := "The exit door leading back to the street"
    defaultAction := .open
    polygon := some [⟨856, 258⟩, ⟨923, 258⟩, ⟨923, 638⟩, ⟨856, 599⟩] }

/-- The golden-key pickup object of the street stage. -/
def goldenKeyObj : InteractiveObjectData :=
  { id := "golden-key"
    name := "golden key"
    position := ⟨500, 640⟩
    width := 48
    height := 24
    description := "A shiny golden key that might unlock something important"
    defaultAction := .get
    polygon := none }

/-- A condensed test-indoor stage (id, background key, walkable area,
objects and spawn from `initializeStages`). -/
def indoorStage : Stage :=
  { id := "test-indoor"
    name := "Mech Store"
    backgroundAssetKey := "mechstore"
    backgroundWidth := 1024
    backgroundHeight := 768
    walkableArea := [⟨336, 613⟩, ⟨899, 613⟩, ⟨899, 772⟩, ⟨227, 772⟩, ⟨336, 613⟩]
    objects := [exitDoorObj]
    npcs := none
    characterStartPosition := ⟨863, 628⟩
    keyPosition := none
    interactionPoints := some [("exit-door", ⟨850, 620⟩)]
    perspectiveScale := none
    perspectiveMovement := some { yMovementFactor := 1 } }

/-- A street-like stage owning the golden key, used for removal
scenarios. -/
def streetStage : Stage :=
  { indoorStage with
    id := "cyberpunk-street"
    name := "Cyberpunk Street"
    backgroundAssetKey := "cyberpunk"
    objects := [exitDoorObj, goldenKeyObj]
    keyPosition := some ⟨500, 640⟩ }

/-- A StageManager with `indoorStage` fully loaded. -/
def smLoaded : StageManagerState :=
  { stages := [("test-indoor", indoorStage), ("cyberpunk-street", streetStage)]
    transitions := []
    currentStage := some indoorStage
    backgroundSprite := true
    keySprite := false
    removedObjects := []
    objects := [("exit-door", exitDoorObj)]
    npcIds := ["bartender"]
    overlayIds := ["mechstore-stool"]
    depthIds := ["background", "npc-bartender", "overlay-mechstore-stool"]
    assets := ["cyberpunk", "mechstore"] }

/-- `smLoaded` with an extra stage whose background asset is missing. -/
def smBroken : StageManagerState :=
  { smLoaded with
    stages := smLoaded.stages ++
      [("broken", { indoorStage with id := "broken", backgroundAssetKey := "missing" })] }

/-- An empty StageManager. -/
def smEmpty : StageManagerState :=
  { stages := []
    transitions := []
    currentStage := none
    backgroundSprite := false
    keySprite := false
    removedObjects := []
    objects := []
    npcIds := []
    overlayIds := []
    depthIds := []
    assets := [] }

/-- A transition from stage "a" through trigger "door". -/
def dupTransition : StageTransition :=
  { fromStageId := "a"
    toStageId := "b"
    triggerObjectId := "door"
    targetPosition := none }

/-! ## Depth Sorter (DepthManager)

Pixi visual handles are modelled as natural numbers; the managed
container's child list is the draw order (smaller index = rendered
behind, i.e. farther).  Whether a visual is destroyed is state external
to the manager, passed in as the set `destroyed`; "parent === container"
is membership in `children`.  `container.setChildIndex(child, i)`
removes the child from its current position and re-inserts it at index
`i`; the source's try/catch around it fires only when the child is not
in the container, which the validity filter rules out, so the model
needs no failure branch. -/

/-- `"character" | "npc" | "object"`. -/
inductive SpriteType
  | character
  | npc
  | object
deriving DecidableEq

/-- `DepthSortableSprite`. -/
structure DepthSortableSprite where
  sprite : Nat
  yPosition : ℚ
  type : SpriteType
  id : String
deriving DecidableEq

/-- The DepthManager state: the managed container's children (draw
order) and the registry in Map insertion order (ids unique). -/
structure DepthManager where
  children : List Nat
  sprites : List DepthSortableSprite
  needsSort : Bool
deriving DecidableEq

/-- The validity filter of `sortSprites`:
`sprite && !sprite.destroyed && sprite.parent === this.container`. -/
def isValidSprite (destroyed children : List Nat) (e : DepthSortableSprite) : Bool :=
  !(destroyed.contains e.sprite) && children.contains e.sprite

/-- Insertion step of the ascending sort by `yPosition`. -/
def insertByY (e : DepthSortableSprite) :
    List DepthSortableSprite → List DepthSortableSprite
  | [] => [e]
  | f :: rest =>
    if e.yPosition < f.yPosition then e :: f :: rest else f :: insertByY e rest

/-- `spritesArray.sort((a, b) => a.yPosition - b.yPosition)`: the JS
sort produces exactly an ascending-by-Y reordering of the array,
modelled by insertion sort. -/
def sortByY : List DepthSortableSprite → List DepthSortableSprite
  | [] => []
  | e :: rest => insertByY e (sortByY rest)

/-- Splice-out half of `setChildIndex`: remove the first occurrence. -/
def removeFirst (c : Nat) : List Nat → List Nat
  | [] => []
  | b :: t => if b = c then t else b :: removeFirst c t

/-- Splice-in half of `setChildIndex`: insert at an index (appending
when the index exceeds the length). -/
def insertAt : Nat → Nat → List Nat → List Nat
  | 0, c, l => c :: l
  | _ + 1, c, [] => [c]
  | i + 1, c, b :: t => b :: insertAt i c t

/-- `container.setChildIndex(child, index)`. -/
def setChildIndex (l : List Nat) (c : Nat) (i : Nat) : List Nat :=
  insertAt i c (removeFirst c l)

/-- The `validSprites.forEach((s, index) => setChildIndex(s.sprite,
index))` loop. -/
def placeAll : List Nat → List Nat → Nat → List Nat
  | children, [], _ => children
  | children, c :: rest, i => placeAll (setChildIndex children c i) rest (i + 1)

namespace DepthManager

/-- `sortSprites()`: sort the registry ascending by Y, keep the valid
entries, reorder the container children accordingly, and prune invalid
entries from the registry. -/
def sortSprites (destroyed : List Nat) (dm : DepthManager) : DepthManager :=
  let spritesArray := sortByY dm.sprites
  let validSprites := spritesArray.filter (isValidSprite destroyed dm.children)
  let children1 :=
    placeAll dm.children (validSprites.map (fun e => e.sprite)) 0
  let sprites1 := dm.sprites.filter (isValidSprite destroyed children1)
  { children := children1, sprites := sprites1, needsSort := dm.needsSort }

/-- `sortSpritesIfNeeded()`. -/
def sortSpritesIfNeeded (destroyed : List Nat) (dm : DepthManager) : DepthManager :=
  if dm.needsSort then { sortSprites destroyed dm with needsSort := false } else dm

/-- `forceSortSprites()`. -/
def forceSortSprites (destroyed : List Nat) (dm : DepthManager) : DepthManager :=
  sortSpritesIfNeeded destroyed { dm with needsSort := true }

/-- `updateSpritePosition(id, yPosition)`: update the stored Y, marking
the registry dirty only when the Y delta exceeds 1. -/
def updateSpritePosition (dm : DepthManager) (id : String) (yPosition : ℚ) :
    DepthManager :=
  match dm.sprites.find? (fun e => e.id == id) with
  | none => dm
  | some e =>
    { dm with
      sprites := dm.sprites.map
        (fun f => if f.id == id then { f with yPosition := yPosition } else f)
      needsSort :=
        if |e.yPosition - yPosition| > 1 then true else dm.needsSort }

/-- `registerSprite(id, sprite, yPosition, type)`: an already-registered
id only updates its Y position; a fresh id is adopted into the container
(when not already a child), tracked, and a sort is scheduled and run. -/
def registerSprite (destroyed : List Nat) (dm : DepthManager) (id : String)
    (sprite : Nat) (yPosition : ℚ) (type : SpriteType) : DepthManager :=
  if (dm.sprites.find? (fun e => e.id == id)).isSome then
    updateSpritePosition dm id yPosition
  else
    let children :=
      if dm.children.contains sprite then dm.children else dm.children ++ [sprite]
    sortSpritesIfNeeded destroyed
      { dm with
        children := children
        sprites := dm.sprites ++ [⟨sprite, yPosition, type, id⟩]
        needsSort := true }

/-- `unregisterSprite(id)`: remove the entry's visual from the container
and the entry from the registry. -/
def unregisterSprite (dm : DepthManager) (id : String) : DepthManager :=
  match dm.sprites.find? (fun e => e.id == id) with
  | none => dm
  | some e =>
    { dm with
      children := removeFirst e.sprite dm.children
      sprites := dm.sprites.filter (fun f => !(f.id == id)) }

end DepthManager

/-- First index of an element in a list (the container draw index). -/
def drawIndex {α : Type} [DecidableEq α] (a : α) : List α → Nat
  | [] => 0
  | b :: t => if b = a then 0 else drawIndex a t + 1

/-- The property C3 asserts of a resort from `dm` to `dm'`: currently
valid entries are draw-ordered by their stored Y (strictly smaller Y
strictly earlier), and the surviving registry is exactly the valid part
of the old one. -/
def depthSortOutcome (destroyed : List Nat) (dm dm' : DepthManager) : Prop :=
  (∀ a b : DepthSortableSprite, a ∈ dm'.sprites → b ∈ dm'.sprites →
    a.yPosition < b.yPosition →
    drawIndex a.sprite dm'.children < drawIndex b.sprite dm'.children) ∧
  (∀ e : DepthSortableSprite,
    e ∈ dm'.sprites ↔ (e ∈ dm.sprites ∧ isValidSprite destroyed dm.children e = true))

/-- A depth manager holding two valid entries (sprites 1 and 3 at Y 2
and 5), one destroyed entry (sprite 7) and one entry whose visual left
the container (sprite 9). -/
def depthDemo : DepthManager :=
  { children := [1, 2, 3, 7]
    sprites := [⟨3, 5, .npc, "a"⟩, ⟨1, 2, .object, "b"⟩,
                ⟨7, 1, .object, "c"⟩, ⟨9, 4, .object, "d"⟩]
    needsSort := true }

/-! ## Movement-scheduler lemmas -/

namespace CharacterController

/-- `updateDirection` never touches the movement state. -/
theorem updateDirection_movementState (c : CharacterController) (d : Direction) :
    (updateDirection c d).movementState = c.movementState := by
  unfold updateDirection
  split <;> rfl

/-- `updateDirection` never touches the position. -/
theorem updateDirection_pos (c : CharacterController) (d : Direction) :
    (updateDirection c d).pos = c.pos := by
  unfold updateDirection
  split <;> rfl

/-- An accepted `moveTo` reports success. -/
theorem moveTo_fst_of_walkable (c : CharacterController) (tx ty now : ℚ)
    (hw : isPositionWalkable c.walkableArea tx ty = true) :
    (moveTo c tx ty now).1 = true := by
  simp [moveTo, hw]

/-- The movement state installed by an accepted `moveTo`. -/
theorem moveTo_movementState (c : CharacterController) (tx ty now : ℚ)
    (hw : isPositionWalkable c.walkableArea tx ty = true) :
    (moveTo c tx ty now).2.movementState =
      { isMoving := true
        startPosition := c.pos
        targetPosition := ⟨tx, ty⟩
        startTime := now
        duration :=
          max (|tx - c.pos.x| / c.moveSpeed)
            (|ty - c.pos.y| / (c.moveSpeed * c.yMovementFactor)) * 1000 } := by
  simp only [moveTo, hw, Bool.not_true, Bool.false_eq_true, if_false]
  rw [updateDirection_movementState]

/-- An accepted `moveTo` keeps the sprite where it was (movement happens
on later ticks). -/
theorem moveTo_pos (c : CharacterController) (tx ty now : ℚ)
    (hw : isPositionWalkable c.walkableArea tx ty = true) :
    (moveTo c tx ty now).2.pos = c.pos := by
  simp only [moveTo, hw, Bool.not_true, Bool.false_eq_true, if_false]
  rw [updateDirection_pos]

/-- An accepted `moveTo` toward a target that differs from the current
position installs a strictly positive duration (speeds positive). -/
theorem moveTo_duration_pos (c : CharacterController) (tx ty now : ℚ)
    (hw : isPositionWalkable c.walkableArea tx ty = true)
    (hs : 0 < c.moveSpeed) (hf : 0 < c.yMovementFactor)
    (hne : c.pos ≠ ⟨tx, ty⟩) :
    0 < (moveTo c tx ty now).2.movementState.duration := by
  rw [moveTo_movementState c tx ty now hw]
  have hxy : tx - c.pos.x ≠ 0 ∨ ty - c.pos.y ≠ 0 := by
    by_contra hcon
    push_neg at hcon
    obtain ⟨hx, hy⟩ := hcon
    apply hne
    have hx' : c.pos.x = tx := by linarith [sub_eq_zero.mp hx]
    have hy' : c.pos.y = ty := by linarith [sub_eq_zero.mp hy]
    calc c.pos = ⟨c.pos.x, c.pos.y⟩ := rfl
      _ = ⟨tx, ty⟩ := by rw [hx', hy']
  have hmax : 0 < max (|tx - c.pos.x| / c.moveSpeed)
      (|ty - c.pos.y| / (c.moveSpeed * c.yMovementFactor)) := by
    rcases hxy with hx | hy
    · exact lt_max_of_lt_left (div_pos (abs_pos.mpr hx) hs)
    · exact lt_max_of_lt_right (div_pos (abs_pos.mpr hy) (mul_pos hs hf))
  positivity

/-- Arrival tick: if the entity is moving, the duration is positive and
the elapsed time has reached the duration, `updateMovement` snaps to the
exact target, ends the movement and resets to the idle frame facing the
current direction. -/
theorem updateMovement_arrival (c : CharacterController) (t : ℚ)
    (hm : c.movementState.isMoving = true)
    (hd : 0 < c.movementState.duration)
    (ht : c.movementState.duration ≤ t - c.movementState.startTime) :
    updateMovement c t =
      { c with
        pos := c.movementState.targetPosition
        movementState := { c.movementState with isMoving := false }
        animationState := { c.animationState with
          isWalking := false
          currentFrame := .idle }
        texture := (c.animationState.currentDirection, .idle) } := by
  have hprog : min ((t - c.movementState.startTime) / c.movementState.duration) 1 = 1 :=
    min_eq_right ((one_le_div hd).mpr ht)
  unfold updateMovement
  rw [hm]
  simp only [Bool.not_true, Bool.false_eq_true, if_false, hprog]
  have hx : c.movementState.startPosition.x +
      (c.movementState.targetPosition.x - c.movementState.startPosition.x) * 1 =
      c.movementState.targetPosition.x := by ring
  have hy : c.movementState.startPosition.y +
      (c.movementState.targetPosition.y - c.movementState.startPosition.y) * 1 =
      c.movementState.targetPosition.y := by ring
  rw [if_pos le_rfl]
  simp only [hx, hy]

/-- `updateAnimation` of a non-walking entity keeps (or re-establishes)
the idle frame and touches neither position nor movement state. -/
theorem updateAnimation_idle (c : CharacterController) (t : ℚ)
    (hw : c.animationState.isWalking = false)
    (hf : c.animationState.currentFrame = .idle) :
    (updateAnimation c t).pos = c.pos ∧
      (updateAnimation c t).movementState = c.movementState ∧
      (updateAnimation c t).animationState.currentFrame = .idle := by
  unfold updateAnimation
  simp only [hw, Bool.false_eq_true, if_false]
  split
  · exact ⟨rfl, rfl, rfl⟩
  · exact ⟨rfl, rfl, hf⟩

end CharacterController

namespace NPC

/-- The movement state installed by an accepted, non-epsilon `NPC.moveTo`. -/
theorem npcMoveTo_movementState (sqrtFn : ℚ → ℚ) (n : NPC) (tx ty now : ℚ)
    (hw : isPositionWalkable n.walkableArea tx ty = true)
    (hfar : ¬(|n.pos.x - tx| < 2 ∧ |n.pos.y - ty| < 2)) :
    (moveTo sqrtFn n tx ty now).2.movementState =
      { isMoving := true
        startPosition := n.pos
        targetPosition := ⟨tx, ty⟩
        startTime := now
        duration := sqrtFn ((tx - n.pos.x) * (tx - n.pos.x) +
          (ty - n.pos.y) * (ty - n.pos.y)) / n.moveSpeed * 1000 } := by
  simp [moveTo, hw, hfar]

/-- An accepted, non-epsilon `NPC.moveTo` keeps the sprite where it was. -/
theorem npcMoveTo_pos (sqrtFn : ℚ → ℚ) (n : NPC) (tx ty now : ℚ)
    (hw : isPositionWalkable n.walkableArea tx ty = true)
    (hfar : ¬(|n.pos.x - tx| < 2 ∧ |n.pos.y - ty| < 2)) :
    (moveTo sqrtFn n tx ty now).2.pos = n.pos := by
  simp [moveTo, hw, hfar]

/-- An accepted `NPC.moveTo` reports success. -/
theorem npcMoveTo_fst_of_walkable (sqrtFn : ℚ → ℚ) (n : NPC) (tx ty now : ℚ)
    (hw : isPositionWalkable n.walkableArea tx ty = true) :
    (moveTo sqrtFn n tx ty now).1 = true := by
  unfold moveTo
  rw [hw]
  simp only [Bool.not_true, Bool.false_eq_true, if_false]
  split <;> rfl

/-- Arrival tick for NPCs: snap to the exact target, end the movement,
reset to the idle frame in the NPC's facing direction. -/
theorem npcUpdateMovement_arrival (n : NPC) (t : ℚ)
    (hm : n.movementState.isMoving = true)
    (hd : 0 < n.movementState.duration)
    (ht : n.movementState.duration ≤ t - n.movementState.startTime) :
    updateMovement n t =
      { n with
        pos := n.movementState.targetPosition
        dataPos := n.movementState.targetPosition
        movementState := { n.movementState with isMoving := false }
        animationState := { n.animationState with
          isWalking := false
          currentFrame := .idle }
        texture := (n.facingDirection, .idle) } := by
  have hprog : min ((t - n.movementState.startTime) / n.movementState.duration) 1 = 1 :=
    min_eq_right ((one_le_div hd).mpr ht)
  unfold updateMovement
  rw [hm]
  simp only [Bool.not_true, Bool.false_eq_true, if_false, hprog]
  have hx : n.movementState.startPosition.x +
      (n.movementState.targetPosition.x - n.movementState.startPosition.x) * 1 =
      n.movementState.targetPosition.x := by ring
  have hy : n.movementState.startPosition.y +
      (n.movementState.targetPosition.y - n.movementState.startPosition.y) * 1 =
      n.movementState.targetPosition.y := by ring
  rw [if_pos le_rfl]
  simp only [hx, hy]

/-- `NPC.updateAnimation` of a non-walking NPC on the idle frame is a
no-op. -/
theorem npcUpdateAnimation_idle (n : NPC) (t : ℚ)
    (hw : n.animationState.isWalking = false)
    (hf : n.animationState.currentFrame = .idle) :
    updateAnimation n t = n := by
  unfold updateAnimation
  rw [hw]
  simp [hf]

end NPC

/-! ## Claims about the movement scheduler -/

/-- C1: for every target that fails the entity's current walkability test,
`moveTo` returns false and the entity's state (position, movement state,
facing direction, animation state) is unchanged — for the player
character and for NPCs alike. -/
theorem claim_C1_moveTo_rejects_unwalkable :
    (∀ (c : CharacterController) (tx ty now : ℚ),
      isPositionWalkable c.walkableArea tx ty = false →
      CharacterController.moveTo c tx ty now = (false, c)) ∧
    (∀ (sqrtFn : ℚ → ℚ) (n : NPC) (tx ty now : ℚ),
      isPositionWalkable n.walkableArea tx ty = false →
      NPC.moveTo sqrtFn n tx ty now = (false, n)) := by
  constructor
  · intro c tx ty now h
    simp [CharacterController.moveTo, h]
  · intro sqrtFn n tx ty now h
    simp [NPC.moveTo, h]

/-- C1 witness: the point (100, 100) is outside the triangle walkable
area of the demo entities, so `moveTo` rejects it and leaves them
unchanged. -/
theorem claim_C1_witness :
    isPositionWalkable demoChar.walkableArea 100 100 = false ∧
    CharacterController.moveTo demoChar 100 100 0 = (false, demoChar) ∧
    NPC.moveTo (fun q => q) demoNPC 100 100 0 = (false, demoNPC) :=
  ⟨by norm_num [isPositionWalkable, isPointInPolygon, polygonEdges, raycastLoop,
      edgeCrosses, demoChar, demoPolygon],
   claim_C1_moveTo_rejects_unwalkable.1 demoChar 100 100 0
     (by norm_num [isPositionWalkable, isPointInPolygon, polygonEdges, raycastLoop,
        edgeCrosses, demoChar, demoPolygon]),
   claim_C1_moveTo_rejects_unwalkable.2 (fun q => q) demoNPC 100 100 0
     (by norm_num [isPositionWalkable, isPointInPolygon, polygonEdges, raycastLoop,
        edgeCrosses, demoNPC, demoPolygon])⟩

/-- C2: for every accepted `moveTo` that starts a movement, on the first
tick whose elapsed time reaches the computed duration the entity's
position equals the target exactly, the movement state is Idle and the
animation frame is the idle frame — for the player character (positive
speed and damping, target distinct from the current position give a
positive duration) and for NPCs (positive duration hypothesis standing
for positivity of `Math.sqrt` on the nonzero displacement). -/
theorem claim_C2_arrival_exact :
    (∀ (c : CharacterController) (tx ty t0 t : ℚ),
      0 < c.moveSpeed → 0 < c.yMovementFactor → c.pos ≠ ⟨tx, ty⟩ →
      isPositionWalkable c.walkableArea tx ty = true →
      (CharacterController.moveTo c tx ty t0).2.movementState.duration ≤ t - t0 →
      (CharacterController.update (CharacterController.moveTo c tx ty t0).2 t).pos = ⟨tx, ty⟩ ∧
      (CharacterController.update (CharacterController.moveTo c tx ty t0).2 t).movementState.isMoving
        = false ∧
      (CharacterController.update (CharacterController.moveTo c tx ty t0).2 t).animationState.currentFrame
        = Frame.idle) ∧
    (∀ (sqrtFn : ℚ → ℚ) (n : NPC) (tx ty t0 t : ℚ),
      isPositionWalkable n.walkableArea tx ty = true →
      ¬(|n.pos.x - tx| < 2 ∧ |n.pos.y - ty| < 2) →
      0 < (NPC.moveTo sqrtFn n tx ty t0).2.movementState.duration →
      (NPC.moveTo sqrtFn n tx ty t0).2.movementState.duration ≤ t - t0 →
      (NPC.update (NPC.moveTo sqrtFn n tx ty t0).2 t).pos = ⟨tx, ty⟩ ∧
      (NPC.update (NPC.moveTo sqrtFn n tx ty t0).2 t).movementState.isMoving = false ∧
      (NPC.update (NPC.moveTo sqrtFn n tx ty t0).2 t).animationState.currentFrame
        = NPCFrame.idle) := by
  constructor
  · intro c tx ty t0 t hs hf hne hw ht
    set c1 := (CharacterController.moveTo c tx ty t0).2 with hc1
    have hms := CharacterController.moveTo_movementState c tx ty t0 hw
    have hmoving : c1.movementState.isMoving = true := by rw [← hc1] at hms; rw [hms]
    have hdur : 0 < c1.movementState.duration :=
      CharacterController.moveTo_duration_pos c tx ty t0 hw hs hf hne
    have hstart : c1.movementState.startTime = t0 := by rw [← hc1] at hms; rw [hms]
    have htarget : c1.movementState.targetPosition = ⟨tx, ty⟩ := by
      rw [← hc1] at hms; rw [hms]
    have harr := CharacterController.updateMovement_arrival c1 t hmoving hdur
      (by rw [hstart]; exact ht)
    unfold CharacterController.update
    rw [harr]
    have hanim := CharacterController.updateAnimation_idle
      { c1 with
        pos := c1.movementState.targetPosition
        movementState := { c1.movementState with isMoving := false }
        animationState := { c1.animationState with
          isWalking := false
          currentFrame := .idle }
        texture := (c1.animationState.currentDirection, .idle) } t rfl rfl
    refine ⟨?_, ?_, hanim.2.2⟩
    · rw [hanim.1]; exact htarget
    · rw [hanim.2.1]
  · intro sqrtFn n tx ty t0 t hw hfar hdur ht
    set n1 := (NPC.moveTo sqrtFn n tx ty t0).2 with hn1
    have hms := NPC.npcMoveTo_movementState sqrtFn n tx ty t0 hw hfar
    have hmoving : n1.movementState.isMoving = true := by rw [← hn1] at hms; rw [hms]
    have hstart : n1.movementState.startTime = t0 := by rw [← hn1] at hms; rw [hms]
    have htarget : n1.movementState.targetPosition = ⟨tx, ty⟩ := by
      rw [← hn1] at hms; rw [hms]
    have harr := NPC.npcUpdateMovement_arrival n1 t hmoving hdur (by rw [hstart]; exact ht)
    unfold NPC.update
    rw [harr]
    rw [NPC.npcUpdateAnimation_idle _ t rfl rfl]
    exact ⟨htarget, rfl, rfl⟩

/-- C2 witness: the demo character moves from (1,1) to (5,1) (duration
(4/180)·1000 ms) and the demo NPC moves from (1,1) to (5,1) with
`sqrtFn` evaluating √16 = 4 (duration (4/120)·1000 ms); at t = 100000
both have arrived exactly. -/
theorem claim_C2_witness :
    (CharacterController.update (CharacterController.moveTo demoChar 5 1 0).2 100000).pos
      = ⟨5, 1⟩ ∧
    (CharacterController.update (CharacterController.moveTo demoChar 5 1 0).2 100000).movementState.isMoving
      = false ∧
    (CharacterController.update (CharacterController.moveTo demoChar 5 1 0).2 100000).animationState.currentFrame
      = Frame.idle ∧
    (NPC.update (NPC.moveTo (fun _ => 4) demoNPC 5 1 0).2 100000).pos = ⟨5, 1⟩ ∧
    (NPC.update (NPC.moveTo (fun _ => 4) demoNPC 5 1 0).2 100000).movementState.isMoving
      = false ∧
    (NPC.update (NPC.moveTo (fun _ => 4) demoNPC 5 1 0).2 100000).animationState.currentFrame
      = NPCFrame.idle := by
  obtain ⟨h1, h2, h3⟩ := claim_C2_arrival_exact.1 demoChar 5 1 0 100000
    (by norm_num [demoChar]) (by norm_num [demoChar])
    (by norm_num [demoChar, Position.mk.injEq])
    (by norm_num [isPositionWalkable, isPointInPolygon, polygonEdges, raycastLoop,
      edgeCrosses, demoChar, demoPolygon])
    (by norm_num [CharacterController.moveTo, CharacterController.updateDirection,
      CharacterController.calculateDirection, isPositionWalkable, isPointInPolygon,
      polygonEdges, raycastLoop, edgeCrosses, demoChar, demoPolygon,
      show Direction.down ≠ Direction.right by decide])
  obtain ⟨h4, h5, h6⟩ := claim_C2_arrival_exact.2 (fun _ => 4) demoNPC 5 1 0 100000
    (by norm_num [isPositionWalkable, isPointInPolygon, polygonEdges, raycastLoop,
      edgeCrosses, demoNPC, demoPolygon])
    (by norm_num [demoNPC])
    (by norm_num [NPC.moveTo, isPositionWalkable, isPointInPolygon, polygonEdges,
      raycastLoop, edgeCrosses, demoNPC, demoPolygon])
    (by norm_num [NPC.moveTo, isPositionWalkable, isPointInPolygon, polygonEdges,
      raycastLoop, edgeCrosses, demoNPC, demoPolygon])
  exact ⟨h1, h2, h3, h4, h5, h6⟩

/-- C6 counterexample: `CharacterController.moveTo` has no epsilon
no-op.  The unrestricted demo character stands at (0,0); the target
(1,0) is within 2 units per axis, yet `moveTo` enters the Moving state
and flips the facing direction from down to right — the claim's "no
state change" fails for the player character. -/
theorem claim_C6_counterexample :
    |demoCharFree.pos.x - 1| < 2 ∧ |demoCharFree.pos.y - 0| < 2 ∧
    (CharacterController.moveTo demoCharFree 1 0 0).1 = true ∧
    (CharacterController.moveTo demoCharFree 1 0 0).2.movementState.isMoving = true ∧
    (CharacterController.moveTo demoCharFree 1 0 0).2.animationState.currentDirection
      = Direction.right ∧
    demoCharFree.animationState.currentDirection = Direction.down := by
  refine ⟨?_, ?_, ?_, ?_, ?_, ?_⟩ <;>
    norm_num [CharacterController.moveTo, CharacterController.updateDirection,
      CharacterController.calculateDirection, isPositionWalkable,
      demoCharFree, demoChar, show Direction.down ≠ Direction.right by decide]

/-- C6 (amended): the ≈2-unit epsilon no-op exists only in `NPC.moveTo`:
for an NPC whose current position is within the 2-unit threshold of a
walkable target on both axes, `moveTo` returns true and the NPC state is
entirely unchanged; `CharacterController.moveTo` performs no such check
and starts a movement even for such targets. -/
theorem claim_C6_npc_epsilon_noop (sqrtFn : ℚ → ℚ) (n : NPC) (tx ty now : ℚ)
    (hw : isPositionWalkable n.walkableArea tx ty = true)
    (hx : |n.pos.x - tx| < 2) (hy : |n.pos.y - ty| < 2) :
    NPC.moveTo sqrtFn n tx ty now = (true, n) := by
  unfold NPC.moveTo
  rw [hw]
  simp [hx, hy]

/-- C6 witness: the demo NPC at (1,1) asked to move to the walkable
point (2,2) — within 2 units on both axes — reports success and is
unchanged. -/
theorem claim_C6_witness :
    isPositionWalkable demoNPC.walkableArea 2 2 = true ∧
    |demoNPC.pos.x - 2| < 2 ∧ |demoNPC.pos.y - 2| < 2 ∧
    NPC.moveTo (fun q => q) demoNPC 2 2 7 = (true, demoNPC) :=
  ⟨by norm_num [isPositionWalkable, isPointInPolygon, polygonEdges, raycastLoop,
      edgeCrosses, demoNPC, demoPolygon],
   by norm_num [demoNPC], by norm_num [demoNPC],
   claim_C6_npc_epsilon_noop (fun q => q) demoNPC 2 2 7
     (by norm_num [isPositionWalkable, isPointInPolygon, polygonEdges, raycastLoop,
        edgeCrosses, demoNPC, demoPolygon])
     (by norm_num [demoNPC]) (by norm_num [demoNPC])⟩

/-- C7 counterexample: on the tie |dx| = |dy| the source's
`calculateDirection` takes the vertical branch: for displacement (1,1)
it returns down, where the claim ("horizontal wins ties") requires
right. -/
theorem claim_C7_counterexample :
    CharacterController.calculateDirection ⟨0, 0⟩ ⟨1, 1⟩ = Direction.down ∧
    Direction.down ≠ Direction.right := by
  refine ⟨by norm_num [CharacterController.calculateDirection], by decide⟩

/-- C7 (amended): the facing direction set at movement start is the
dominant axis of the displacement with the horizontal branch taken only
on strict dominance: right if dx > 0 and |dx| > |dy|, left if dx < 0 and
|dx| > |dy|, down if dy > 0 and |dy| ≥ |dx|, up if dy < 0 and
|dy| ≥ |dx| — so when |dx| = |dy| the vertical direction wins the tie. -/
theorem claim_C7_direction_dominant_axis (src dst : Position) :
    (0 < dst.x - src.x → |dst.y - src.y| < |dst.x - src.x| →
      CharacterController.calculateDirection src dst = Direction.right) ∧
    (dst.x - src.x < 0 → |dst.y - src.y| < |dst.x - src.x| →
      CharacterController.calculateDirection src dst = Direction.left) ∧
    (0 < dst.y - src.y → |dst.x - src.x| ≤ |dst.y - src.y| →
      CharacterController.calculateDirection src dst = Direction.down) ∧
    (dst.y - src.y < 0 → |dst.x - src.x| ≤ |dst.y - src.y| →
      CharacterController.calculateDirection src dst = Direction.up) := by
  unfold CharacterController.calculateDirection
  refine ⟨?_, ?_, ?_, ?_⟩
  · intro hx habs
    rw [if_pos habs, if_pos hx]
  · intro hx habs
    rw [if_pos habs, if_neg (by linarith)]
  · intro hy habs
    rw [if_neg (by simpa using habs), if_pos hy]
  · intro hy habs
    rw [if_neg (by simpa using habs), if_neg (by linarith)]

/-- C7 witness: displacements (2,1), (-2,1), (1,2), (1,-2) from the
origin give right, left, down, up respectively. -/
theorem claim_C7_witness :
    CharacterController.calculateDirection ⟨0, 0⟩ ⟨2, 1⟩ = Direction.right ∧
    CharacterController.calculateDirection ⟨0, 0⟩ ⟨-2, 1⟩ = Direction.left ∧
    CharacterController.calculateDirection ⟨0, 0⟩ ⟨1, 2⟩ = Direction.down ∧
    CharacterController.calculateDirection ⟨0, 0⟩ ⟨1, -2⟩ = Direction.up :=
  ⟨(claim_C7_direction_dominant_axis ⟨0, 0⟩ ⟨2, 1⟩).1 (by norm_num) (by norm_num),
   (claim_C7_direction_dominant_axis ⟨0, 0⟩ ⟨-2, 1⟩).2.1 (by norm_num) (by norm_num),
   (claim_C7_direction_dominant_axis ⟨0, 0⟩ ⟨1, 2⟩).2.2.1 (by norm_num) (by norm_num),
   (claim_C7_direction_dominant_axis ⟨0, 0⟩ ⟨1, -2⟩).2.2.2 (by norm_num) (by norm_num)⟩

/-! ## Claims about the dialogue engine -/

/-- `getCurrentNode` only succeeds on an active dialogue with a current
tree and node id resolving to a node of the tree. -/
theorem getCurrentNode_some (dm : DialogueManager) (node : DialogueNode)
    (h : dm.getCurrentNode = some node) :
    ∃ tree nodeId, dm.currentState.currentTree = some tree ∧
      dm.currentState.currentNodeId = some nodeId ∧
      mapLookup tree.nodes nodeId = some node := by
  unfold DialogueManager.getCurrentNode at h
  by_cases hact : dm.currentState.isActive
  · rw [hact] at h
    simp only [Bool.not_true, Bool.false_eq_true, if_false] at h
    match htree : dm.currentState.currentTree, hid : dm.currentState.currentNodeId with
    | some tree, some nodeId =>
      rw [htree, hid] at h
      exact ⟨tree, nodeId, rfl, rfl, h⟩
    | some tree, none => rw [htree, hid] at h; cases h
    | none, some nodeId => rw [htree, hid] at h; cases h
    | none, none => rw [htree, hid] at h; cases h
  · rw [Bool.not_eq_true] at hact
    rw [hact] at h
    cases h

/-- C5: a `choose(responseId)` whose id is not among the current node's
responses, or whose conditions fail against the current flag/inventory
context, returns null and changes nothing: the dialogue manager (active
flag, current tree, current node, flags) and the caller's inventory are
returned unchanged. -/
theorem claim_C5_choose_rejected_no_state_change (dm : DialogueManager)
    (node : DialogueNode) (responseId : String) (inventory : List String)
    (hnode : dm.getCurrentNode = some node)
    (hrej : node.responses.find? (fun r => r.id == responseId) = none ∨
      ∃ r, node.responses.find? (fun r => r.id == responseId) = some r ∧
        DialogueManager.checkConditions dm.gameFlags r.conditions (some inventory) = false) :
    dm.chooseResponse responseId inventory = (none, dm, inventory) := by
  obtain ⟨tree, nodeId, htree, _, _⟩ := getCurrentNode_some dm node hnode
  unfold DialogueManager.chooseResponse
  rw [hnode, htree]
  dsimp only
  rcases hrej with hnone | ⟨r, hfind, hcond⟩
  · rw [hnone]
  · rw [hfind]
    dsimp only
    rw [hcond]
    simp

/-- C5 witness: on `demoDM` (current node `demoNode`), the unknown
response id "bogus" and the known-but-gated response id "r1" (inventory
lacks the golden key) are both rejected without any state change. -/
theorem claim_C5_witness :
    demoDM.chooseResponse "bogus" ["crowbar"] = (none, demoDM, ["crowbar"]) ∧
    demoDM.chooseResponse "r1" ["crowbar"] = (none, demoDM, ["crowbar"]) :=
  ⟨claim_C5_choose_rejected_no_state_change demoDM demoNode "bogus" ["crowbar"]
     (by decide) (Or.inl (by decide)),
   claim_C5_choose_rejected_no_state_change demoDM demoNode "r1" ["crowbar"]
     (by decide)
     (Or.inr ⟨demoResponse, by decide, by decide⟩)⟩

/-- C10: `startDialogue` evaluates the start node's conditions without
any inventory context (the source omits the `inventory` argument of
`checkConditions`), so any registered tree whose start node carries an
inventory-membership condition can never start: `startDialogue` returns
null and the manager is unchanged — irrespective of any caller-side
inventory, which `startDialogue` does not even receive. -/
theorem claim_C10_start_inventory_condition_never_starts (dm : DialogueManager)
    (npcId : String) (pos : Position) (tree : DialogueTree)
    (startNode : DialogueNode) (conds : List DialogueCondition)
    (c : DialogueCondition)
    (htree : mapLookup dm.dialogueTrees npcId = some tree)
    (hnode : mapLookup tree.nodes tree.startNodeId = some startNode)
    (hconds : startNode.conditions = some conds)
    (hc : c ∈ conds) (hty : c.type = ConditionType.inventory) :
    dm.startDialogue npcId pos = (none, dm) := by
  unfold DialogueManager.startDialogue
  rw [htree]
  dsimp only
  rw [hnode]
  dsimp only
  have hfail : DialogueManager.checkConditions dm.gameFlags startNode.conditions none
      = false := by
    unfold DialogueManager.checkConditions
    rw [hconds]
    dsimp only
    have hne : conds.isEmpty = false := by
      cases conds with
      | nil => cases hc
      | cons a l => rfl
    rw [hne]
    simp only [Bool.false_eq_true, if_false]
    rw [List.all_eq_false]
    refine ⟨c, hc, ?_⟩
    rw [hty]
    match c.key with
    | none => simp
    | some k => simp
  rw [hfail]
  simp

/-- C10 witness: `invDM` registers a tree for "merchant" whose start
node requires the golden key in inventory; `startDialogue` returns null
and leaves the manager unchanged. -/
theorem claim_C10_witness :
    invDM.startDialogue "merchant" ⟨0, 0⟩ = (none, invDM) :=
  claim_C10_start_inventory_condition_never_starts invDM "merchant" ⟨0, 0⟩
    invTree invNode
    [{ type := .inventory, key := some "golden-key", value := none }]
    { type := .inventory, key := some "golden-key", value := none }
    (by decide) (by decide) (by decide) (by decide) (by decide)

/-! ## Map/Set helper lemmas -/

theorem mapLookup_cons {α : Type} (p : String × α) (m : List (String × α)) (k : String) :
    mapLookup (p :: m) k = if p.1 == k then some p.2 else mapLookup m k := by
  by_cases h : (p.1 == k) = true
  · simp [mapLookup, List.find?_cons_of_pos, h]
  · simp only [Bool.not_eq_true] at h
    simp [mapLookup, List.find?_cons_of_neg, h]

theorem mapLookup_isSome_find {α : Type} (m : List (String × α)) (k : String) :
    (List.find? (fun p => p.1 == k) m).isSome = (mapLookup m k).isSome := by
  unfold mapLookup
  cases List.find? (fun p => p.1 == k) m <;> rfl

theorem lookup_replace_self {α : Type} (m : List (String × α)) (k : String) (v : α)
    (h : (mapLookup m k).isSome = true) :
    mapLookup (m.map (fun p => if p.1 == k then (k, v) else p)) k = some v := by
  induction m with
  | nil => simp [mapLookup] at h
  | cons p t ih =>
    by_cases hp : (p.1 == k) = true
    · simp only [List.map_cons, if_pos hp]
      rw [mapLookup_cons]
      simp
    · rw [mapLookup_cons, if_neg hp] at h
      simp only [List.map_cons, if_neg hp]
      rw [mapLookup_cons, if_neg hp]
      exact ih h

theorem lookup_replace_ne {α : Type} (m : List (String × α)) (k k' : String) (v : α)
    (hne : k' ≠ k) :
    mapLookup (m.map (fun p => if p.1 == k then (k, v) else p)) k' = mapLookup m k' := by
  induction m with
  | nil => rfl
  | cons p t ih =>
    by_cases hp : (p.1 == k) = true
    · have hpk : p.1 = k := by simpa using hp
      simp only [List.map_cons, if_pos hp]
      rw [mapLookup_cons, mapLookup_cons]
      have h1 : ¬(((k, v) : String × α).1 == k') = true := by
        simp only [beq_iff_eq]
        exact fun hcon => hne hcon.symm
      have h2 : ¬(p.1 == k') = true := by
        simp only [beq_iff_eq, hpk]
        exact fun hcon => hne hcon.symm
      rw [if_neg h1, if_neg h2]
      exact ih
    · simp only [List.map_cons, if_neg hp]
      rw [mapLookup_cons, mapLookup_cons]
      by_cases hq : (p.1 == k') = true
      · rw [if_pos hq, if_pos hq]
      · rw [if_neg hq, if_neg hq]
        exact ih

theorem mapLookup_append_right {α : Type} (m l : List (String × α)) (k : String)
    (h : mapLookup m k = none) : mapLookup (m ++ l) k = mapLookup l k := by
  induction m with
  | nil => rfl
  | cons p t ih =>
    rw [mapLookup_cons] at h
    by_cases hp : (p.1 == k) = true
    · rw [if_pos hp] at h; cases h
    · rw [if_neg hp] at h
      rw [List.cons_append, mapLookup_cons, if_neg hp]
      exact ih h

theorem mapLookup_append_left {α : Type} (m l : List (String × α)) (k : String) (w : α)
    (h : mapLookup m k = some w) : mapLookup (m ++ l) k = some w := by
  induction m with
  | nil => cases h
  | cons p t ih =>
    rw [mapLookup_cons] at h
    rw [List.cons_append, mapLookup_cons]
    by_cases hp : (p.1 == k) = true
    · rw [if_pos hp] at h ⊢; exact h
    · rw [if_neg hp] at h ⊢; exact ih h

theorem mapLookup_single_ne {α : Type} (k k' : String) (v : α) (hne : k' ≠ k) :
    mapLookup [(k, v)] k' = none := by
  have hcond : ¬(((k, v) : String × α).1 == k') = true := by
    simp only [beq_iff_eq]
    exact fun hcon => hne hcon.symm
  rw [mapLookup_cons, if_neg hcond]
  rfl

theorem mapLookup_mapSet_self {α : Type} (m : List (String × α)) (k : String) (v : α) :
    mapLookup (mapSet m k v) k = some v := by
  unfold mapSet
  rw [mapLookup_isSome_find]
  by_cases h : (mapLookup m k).isSome = true
  · rw [if_pos h]
    exact lookup_replace_self m k v h
  · have h0 : mapLookup m k = none := by
      cases hmk : mapLookup m k with
      | none => rfl
      | some w => rw [hmk] at h; simp at h
    rw [if_neg h]
    rw [mapLookup_append_right m _ k h0, mapLookup_cons]
    simp

theorem mapLookup_mapSet_ne {α : Type} (m : List (String × α)) (k k' : String) (v : α)
    (hne : k' ≠ k) : mapLookup (mapSet m k v) k' = mapLookup m k' := by
  unfold mapSet
  split
  · exact lookup_replace_ne m k k' v hne
  · cases hmk : mapLookup m k' with
    | none => rw [mapLookup_append_right m _ k' hmk, mapLookup_single_ne k k' v hne]
    | some w => rw [mapLookup_append_left m _ k' w hmk]

theorem setAdd_contains_self (s : List String) (k : String) :
    (setAdd s k).contains k = true := by
  unfold setAdd
  split
  · assumption
  · simp

theorem setAdd_contains_mono (s : List String) (k k' : String)
    (h : s.contains k' = true) : (setAdd s k).contains k' = true := by
  unfold setAdd
  split
  · exact h
  · have hm : k' ∈ s := by simpa using h
    simp [List.mem_append_left _ hm]

/-! ## StageManager helper lemmas -/

namespace StageManagerState

theorem isObjectRemoved_congr (sm sm' : StageManagerState) (s o : String)
    (h : sm'.removedObjects = sm.removedObjects) :
    sm'.isObjectRemoved s o = sm.isObjectRemoved s o := by
  unfold isObjectRemoved
  rw [h]

theorem removedObjects_cleanup (sm : StageManagerState) :
    (sm.cleanupCurrentStage).removedObjects = sm.removedObjects := rfl

theorem removedObjects_loadBackground (sm : StageManagerState) (stage : Stage) :
    (sm.loadBackground stage).2.removedObjects = sm.removedObjects := by
  unfold loadBackground
  split <;> rfl

theorem removedObjects_loadObjects (sm : StageManagerState) (stage : Stage) :
    (sm.loadObjects stage).removedObjects = sm.removedObjects := rfl

theorem removedObjects_loadKeySprite (sm : StageManagerState) (stage : Stage) :
    (sm.loadKeySprite stage).removedObjects = sm.removedObjects := by
  unfold loadKeySprite
  split
  · rfl
  · split <;> rfl

theorem removedObjects_npcFold (npcs : List NPCData) (init : StageManagerState) :
    (npcs.foldl (fun s npc =>
      { s with
        npcIds := s.npcIds ++ [npc.id]
        depthIds := registerDepth s.depthIds ("npc-" ++ npc.id) }) init).removedObjects
      = init.removedObjects := by
  induction npcs generalizing init with
  | nil => rfl
  | cons npc rest ih =>
    rw [List.foldl_cons]
    exact ih _

theorem removedObjects_loadNPCs (sm : StageManagerState) (stage : Stage) :
    (sm.loadNPCs stage).removedObjects = sm.removedObjects := by
  unfold loadNPCs
  cases stage.npcs with
  | none => rfl
  | some npcs =>
    dsimp only
    rw [removedObjects_npcFold]

theorem removedObjects_loadStageOverlays (sm : StageManagerState) (stage : Stage) :
    (sm.loadStageOverlays stage).removedObjects = sm.removedObjects := by
  unfold loadStageOverlays
  dsimp only
  split
  · rfl
  · rfl

/-- `loadStage` on a known stage with a resolvable background follows
the success path. -/
theorem loadStage_eq_success (sm : StageManagerState) (stageId : String) (stage : Stage)
    (hs : mapLookup sm.stages stageId = some stage)
    (hbg : sm.assets.contains stage.backgroundAssetKey = true) :
    sm.loadStage stageId = (true, sm.loadStageSuccess stage) := by
  unfold loadStage loadBackground
  rw [hs]
  dsimp only
  have hbg2 : sm.cleanupCurrentStage.assets.contains stage.backgroundAssetKey = true := hbg
  rw [hbg2]
  rfl

/-- `loadStage` on a known stage with an unresolvable background fails,
returning the torn-down state. -/
theorem loadStage_eq_cleanup (sm : StageManagerState) (stageId : String) (stage : Stage)
    (hs : mapLookup sm.stages stageId = some stage)
    (hbg : sm.assets.contains stage.backgroundAssetKey = false) :
    sm.loadStage stageId = (false, sm.cleanupCurrentStage) := by
  unfold loadStage loadBackground
  rw [hs]
  dsimp only
  have hbg2 : sm.cleanupCurrentStage.assets.contains stage.backgroundAssetKey = false := hbg
  rw [hbg2]
  rfl

/-- `loadStage` on an unknown stage id fails with no state change. -/
theorem loadStage_unknown (sm : StageManagerState) (stageId : String)
    (hs : mapLookup sm.stages stageId = none) :
    sm.loadStage stageId = (false, sm) := by
  unfold loadStage
  rw [hs]

theorem removedObjects_loadStageSuccess (sm : StageManagerState) (stage : Stage) :
    (sm.loadStageSuccess stage).removedObjects = sm.removedObjects := by
  unfold loadStageSuccess
  dsimp only
  rw [removedObjects_loadStageOverlays]
  by_cases hn : stage.npcs.isSome = true
  · rw [if_pos hn, removedObjects_loadNPCs]
    by_cases hk : stage.keyPosition.isSome = true
    · rw [if_pos hk, removedObjects_loadKeySprite, removedObjects_loadObjects]; rfl
    · rw [if_neg hk, removedObjects_loadObjects]; rfl
  · rw [if_neg hn]
    by_cases hk : stage.keyPosition.isSome = true
    · rw [if_pos hk, removedObjects_loadKeySprite, removedObjects_loadObjects]; rfl
    · rw [if_neg hk, removedObjects_loadObjects]; rfl

theorem removedObjects_loadStage (sm : StageManagerState) (stageId : String) :
    (sm.loadStage stageId).2.removedObjects = sm.removedObjects := by
  cases hs : mapLookup sm.stages stageId with
  | none => rw [loadStage_unknown sm stageId hs]
  | some stage =>
    cases hbg : sm.assets.contains stage.backgroundAssetKey with
    | false => rw [loadStage_eq_cleanup sm stageId stage hs hbg]; rfl
    | true =>
      rw [loadStage_eq_success sm stageId stage hs hbg]
      exact removedObjects_loadStageSuccess sm stage

theorem removedObjects_transitionToStage (sm : StageManagerState) (toStageId : String) :
    (sm.transitionToStage toStageId).2.removedObjects = sm.removedObjects := by
  unfold transitionToStage
  cases mapLookup sm.stages toStageId with
  | none => rfl
  | some stage => exact removedObjects_loadStage sm toStageId

theorem removedObjects_removeKeySprite (sm : StageManagerState) :
    sm.removeKeySprite.removedObjects = sm.removedObjects := by
  unfold removeKeySprite
  split <;> rfl

theorem removedObjects_destroy (sm : StageManagerState) :
    sm.destroy.removedObjects = sm.removedObjects := rfl

/-- `markObjectAsRemoved` never drops an existing membership. -/
theorem markRemoved_mono (sm : StageManagerState) (s o s' o' : String)
    (h : sm.isObjectRemoved s o = true) :
    (sm.markObjectAsRemoved s' o').isObjectRemoved s o = true := by
  unfold isObjectRemoved at h
  obtain ⟨set, hset, hcon⟩ :
      ∃ set, mapLookup sm.removedObjects s = some set ∧ set.contains o = true := by
    cases hm : mapLookup sm.removedObjects s with
    | none => rw [hm] at h; cases h
    | some set => rw [hm] at h; exact ⟨set, rfl, h⟩
  unfold markObjectAsRemoved isObjectRemoved
  by_cases hss : s = s'
  · subst hss
    rw [if_pos (by rw [hset]; rfl)]
    rw [mapLookup_mapSet_self]
    rw [hset]
    exact setAdd_contains_mono set o' o hcon
  · have hs' : s ≠ s' := hss
    by_cases hfound : (mapLookup sm.removedObjects s').isSome = true
    · rw [if_pos hfound]
      rw [mapLookup_mapSet_ne _ _ _ _ hs', hset]
      exact hcon
    · rw [if_neg hfound]
      rw [mapLookup_mapSet_ne _ _ _ _ hs', mapLookup_mapSet_ne _ _ _ _ hs', hset]
      exact hcon

/-- `markObjectAsRemoved` establishes membership. -/
theorem markRemoved_self (sm : StageManagerState) (s o : String) :
    (sm.markObjectAsRemoved s o).isObjectRemoved s o = true := by
  unfold markObjectAsRemoved isObjectRemoved
  rw [mapLookup_mapSet_self]
  exact setAdd_contains_self _ o

theorem objects_loadKeySprite (sm : StageManagerState) (stage : Stage) :
    (sm.loadKeySprite stage).objects = sm.objects := by
  unfold loadKeySprite
  split
  · rfl
  · split <;> rfl

theorem objects_npcFold (npcs : List NPCData) (init : StageManagerState) :
    (npcs.foldl (fun s npc =>
      { s with
        npcIds := s.npcIds ++ [npc.id]
        depthIds := registerDepth s.depthIds ("npc-" ++ npc.id) }) init).objects
      = init.objects := by
  induction npcs generalizing init with
  | nil => rfl
  | cons npc rest ih =>
    rw [List.foldl_cons]
    exact ih _

theorem objects_loadNPCs (sm : StageManagerState) (stage : Stage) :
    (sm.loadNPCs stage).objects = sm.objects := by
  unfold loadNPCs
  cases stage.npcs with
  | none => rfl
  | some npcs =>
    dsimp only
    rw [objects_npcFold]

theorem objects_loadStageOverlays (sm : StageManagerState) (stage : Stage) :
    (sm.loadStageOverlays stage).objects = sm.objects := by
  unfold loadStageOverlays
  dsimp only
  split
  · rfl
  · rfl

theorem objects_loadStageSuccess (sm : StageManagerState) (stage : Stage) :
    (sm.loadStageSuccess stage).objects =
      stage.objects.foldl
        (fun acc obj =>
          if !sm.isObjectRemoved stage.id obj.id then mapSet acc obj.id obj else acc)
        [] := by
  unfold loadStageSuccess
  dsimp only
  rw [objects_loadStageOverlays]
  by_cases hn : stage.npcs.isSome = true
  · rw [if_pos hn, objects_loadNPCs]
    by_cases hk : stage.keyPosition.isSome = true
    · rw [if_pos hk, objects_loadKeySprite]; rfl
    · rw [if_neg hk]; rfl
  · rw [if_neg hn]
    by_cases hk : stage.keyPosition.isSome = true
    · rw [if_pos hk, objects_loadKeySprite]; rfl
    · rw [if_neg hk]; rfl

end StageManagerState

theorem mapLookup_mapSet_isSome {α : Type} (m : List (String × α)) (k : String)
    (v : α) (k' : String) :
    (mapLookup (mapSet m k v) k').isSome = true ↔
      (k' = k ∨ (mapLookup m k').isSome = true) := by
  by_cases hk : k' = k
  · subst hk
    rw [mapLookup_mapSet_self]
    simp
  · rw [mapLookup_mapSet_ne _ _ _ _ hk]
    simp [hk]

/-- Membership in the registry built by the `loadObjects` fold: a key is
present iff it was present in the accumulator or is the id of a listed
object passing the predicate. -/
theorem foldl_objects_lookup (objs : List InteractiveObjectData)
    (pred : InteractiveObjectData → Bool) :
    ∀ (acc : List (String × InteractiveObjectData)) (k : String),
      (mapLookup (objs.foldl
        (fun acc obj => if pred obj then mapSet acc obj.id obj else acc) acc) k).isSome
          = true ↔
        ((mapLookup acc k).isSome = true ∨
          ∃ obj ∈ objs, obj.id = k ∧ pred obj = true) := by
  induction objs with
  | nil =>
    intro acc k
    simp
  | cons obj rest ih =>
    intro acc k
    rw [List.foldl_cons]
    by_cases hp : pred obj = true
    · rw [if_pos hp, ih]
      constructor
      · rintro (hacc | ⟨o2, ho2, hid, hp2⟩)
        · rw [mapLookup_mapSet_isSome] at hacc
          rcases hacc with hk | hacc
          · exact Or.inr ⟨obj, List.mem_cons_self obj rest, hk.symm, hp⟩
          · exact Or.inl hacc
        · exact Or.inr ⟨o2, List.mem_cons_of_mem obj ho2, hid, hp2⟩
      · rintro (hacc | ⟨o2, ho2, hid, hp2⟩)
        · exact Or.inl ((mapLookup_mapSet_isSome acc obj.id obj k).mpr (Or.inr hacc))
        · rcases List.mem_cons.mp ho2 with heq | hmem
          · subst heq
            exact Or.inl ((mapLookup_mapSet_isSome acc o2.id o2 k).mpr (Or.inl hid.symm))
          · exact Or.inr ⟨o2, hmem, hid, hp2⟩
    · rw [if_neg hp, ih]
      constructor
      · rintro (hacc | ⟨o2, ho2, hid, hp2⟩)
        · exact Or.inl hacc
        · exact Or.inr ⟨o2, List.mem_cons_of_mem obj ho2, hid, hp2⟩
      · rintro (hacc | ⟨o2, ho2, hid, hp2⟩)
        · exact Or.inl hacc
        · rcases List.mem_cons.mp ho2 with heq | hmem
          · subst heq
            exact absurd hp2 hp
          · exact Or.inr ⟨o2, hmem, hid, hp2⟩

/-! ## Claims about the scene/stage manager -/

/-- C4: removed-object bookkeeping.  (1) `markObjectAsRemoved(s, o)`
makes `isObjectRemoved(s, o)` true; (2) it stays true after any further
sequence of StageManager operations, since none removes entries from the
removed sets; (3) a subsequent successful `loadStage` instantiates
exactly the stage-definition objects whose ids are not in the stage's
removed set; (4) in particular a removed id is absent from the reloaded
registry. -/
theorem claim_C4_removed_monotone_reload_excludes :
    (∀ (sm : StageManagerState) (s o : String),
      (sm.markObjectAsRemoved s o).isObjectRemoved s o = true) ∧
    (∀ (sm : StageManagerState) (s o : String) (ops : List StageOp),
      sm.isObjectRemoved s o = true →
      (applyStageOps sm ops).isObjectRemoved s o = true) ∧
    (∀ (sm : StageManagerState) (stageId : String) (stage : Stage) (k : String),
      mapLookup sm.stages stageId = some stage →
      sm.assets.contains stage.backgroundAssetKey = true →
      ((mapLookup (sm.loadStage stageId).2.objects k).isSome = true ↔
        ((∃ obj ∈ stage.objects, obj.id = k) ∧
          sm.isObjectRemoved stage.id k = false))) ∧
    (∀ (sm : StageManagerState) (stageId : String) (stage : Stage) (o : String),
      mapLookup sm.stages stageId = some stage →
      sm.assets.contains stage.backgroundAssetKey = true →
      sm.isObjectRemoved stage.id o = true →
      mapLookup (sm.loadStage stageId).2.objects o = none) := by
  have hopmono : ∀ (sm : StageManagerState) (s o : String) (op : StageOp),
      sm.isObjectRemoved s o = true →
      (applyStageOp sm op).isObjectRemoved s o = true := by
    intro sm s o op h
    cases op with
    | addStage stage =>
      dsimp only [applyStageOp]
      rw [StageManagerState.isObjectRemoved_congr sm (sm.addStage stage) s o rfl]
      exact h
    | addTransition t =>
      dsimp only [applyStageOp]
      rw [StageManagerState.isObjectRemoved_congr sm (sm.addTransition t) s o rfl]
      exact h
    | markRemoved s' o' =>
      exact StageManagerState.markRemoved_mono sm s o s' o' h
    | load stageId =>
      dsimp only [applyStageOp]
      rw [StageManagerState.isObjectRemoved_congr sm _ s o
        (StageManagerState.removedObjects_loadStage sm stageId)]
      exact h
    | transition toStageId =>
      dsimp only [applyStageOp]
      rw [StageManagerState.isObjectRemoved_congr sm _ s o
        (StageManagerState.removedObjects_transitionToStage sm toStageId)]
      exact h
    | removeKey =>
      dsimp only [applyStageOp]
      rw [StageManagerState.isObjectRemoved_congr sm _ s o
        (StageManagerState.removedObjects_removeKeySprite sm)]
      exact h
    | destroy =>
      dsimp only [applyStageOp]
      rw [StageManagerState.isObjectRemoved_congr sm _ s o
        (StageManagerState.removedObjects_destroy sm)]
      exact h
  have hlookup : ∀ (sm : StageManagerState) (stageId : String) (stage : Stage)
      (k : String), mapLookup sm.stages stageId = some stage →
      sm.assets.contains stage.backgroundAssetKey = true →
      ((mapLookup (sm.loadStage stageId).2.objects k).isSome = true ↔
        ((∃ obj ∈ stage.objects, obj.id = k) ∧
          sm.isObjectRemoved stage.id k = false)) := by
    intro sm stageId stage k hs hbg
    rw [StageManagerState.loadStage_eq_success sm stageId stage hs hbg]
    show (mapLookup (sm.loadStageSuccess stage).objects k).isSome = true ↔ _
    rw [StageManagerState.objects_loadStageSuccess sm stage]
    rw [foldl_objects_lookup]
    constructor
    · rintro (habs | ⟨obj, hm, hid, hpred⟩)
      · simp [mapLookup] at habs
      · refine ⟨⟨obj, hm, hid⟩, ?_⟩
        rw [← hid]
        simpa using hpred
    · rintro ⟨⟨obj, hm, hid⟩, hrem⟩
      refine Or.inr ⟨obj, hm, hid, ?_⟩
      rw [hid]
      simp [hrem]
  refine ⟨fun sm s o => StageManagerState.markRemoved_self sm s o, ?_, hlookup, ?_⟩
  · intro sm s o ops h
    induction ops generalizing sm with
    | nil => exact h
    | cons op rest ih =>
      exact ih _ (hopmono sm s o op h)
  · intro sm stageId stage o hs hbg hrem
    have hiff := hlookup sm stageId stage o hs hbg
    cases hm : mapLookup (sm.loadStage stageId).2.objects o with
    | none => rfl
    | some w =>
      have : sm.isObjectRemoved stage.id o = false :=
        (hiff.mp (by rw [hm]; rfl)).2
      rw [this] at hrem
      cases hrem

/-- C4 witness: marking the golden key removed on the street stage makes
`isObjectRemoved` true, keeps it true across a reload / key-sprite
removal / destroy sequence, and the reloaded street stage's object
registry no longer contains "golden-key". -/
theorem claim_C4_witness :
    (smLoaded.markObjectAsRemoved "cyberpunk-street" "golden-key").isObjectRemoved
      "cyberpunk-street" "golden-key" = true ∧
    (applyStageOps (smLoaded.markObjectAsRemoved "cyberpunk-street" "golden-key")
      [StageOp.load "cyberpunk-street", StageOp.removeKey,
       StageOp.destroy]).isObjectRemoved "cyberpunk-street" "golden-key" = true ∧
    mapLookup ((smLoaded.markObjectAsRemoved "cyberpunk-street"
      "golden-key").loadStage "cyberpunk-street").2.objects "golden-key" = none :=
  ⟨claim_C4_removed_monotone_reload_excludes.1 smLoaded "cyberpunk-street" "golden-key",
   claim_C4_removed_monotone_reload_excludes.2.1
     (smLoaded.markObjectAsRemoved "cyberpunk-street" "golden-key")
     "cyberpunk-street" "golden-key"
     [StageOp.load "cyberpunk-street", StageOp.removeKey, StageOp.destroy]
     (claim_C4_removed_monotone_reload_excludes.1 smLoaded "cyberpunk-street" "golden-key"),
   claim_C4_removed_monotone_reload_excludes.2.2.2
     (smLoaded.markObjectAsRemoved "cyberpunk-street" "golden-key")
     "cyberpunk-street" streetStage "golden-key" (by rfl) (by rfl)
     (claim_C4_removed_monotone_reload_excludes.1 smLoaded "cyberpunk-street" "golden-key")⟩

/-- C8 counterexample: `addTransition` is a plain push with no
de-duplication — after adding the same (fromStageId, triggerObjectId)
transition twice, the catalog holds two transitions for the pair,
refuting "at most one StageTransition per pair after any sequence of
addTransition calls". -/
theorem claim_C8_counterexample :
    (((smEmpty.addTransition dupTransition).addTransition dupTransition).transitions.countP
      (fun t => t.fromStageId == "a" && t.triggerObjectId == "door")) = 2 := by
  decide

/-- C8 (amended): `addTransition` appends unconditionally, so the
catalog can hold several transitions for one (fromStageId,
triggerObjectId) pair; `findTransition` returns a transition exactly
when both key fields match (the first such in insertion order), and
absence (`undefined`) exactly when no registered transition matches —
absence is not an error. -/
theorem claim_C8_findTransition_exact_match (sm : StageManagerState) (f g : String) :
    (∀ t, sm.findTransition f g = some t →
      t.fromStageId = f ∧ t.triggerObjectId = g ∧ t ∈ sm.transitions) ∧
    (sm.findTransition f g = none ↔
      ∀ t ∈ sm.transitions, ¬(t.fromStageId = f ∧ t.triggerObjectId = g)) := by
  constructor
  · intro t hfind
    unfold StageManagerState.findTransition at hfind
    have hp := List.find?_some hfind
    have hm := List.mem_of_find?_eq_some hfind
    simp only [Bool.and_eq_true, beq_iff_eq] at hp
    exact ⟨hp.1, hp.2, hm⟩
  · unfold StageManagerState.findTransition
    rw [List.find?_eq_none]
    constructor
    · intro hall t hmem hcon
      exact hall t hmem (by simp [hcon.1, hcon.2])
    · intro hall t hmem hp
      simp only [Bool.and_eq_true, beq_iff_eq] at hp
      exact hall t hmem ⟨hp.1, hp.2⟩

/-- C8 witness: after a single `addTransition`, `findTransition`
resolves ("a", "door") to that transition, whose key fields match. -/
theorem claim_C8_witness :
    dupTransition.fromStageId = "a" ∧ dupTransition.triggerObjectId = "door" ∧
    dupTransition ∈ (smEmpty.addTransition dupTransition).transitions :=
  (claim_C8_findTransition_exact_match (smEmpty.addTransition dupTransition)
    "a" "door").1 dupTransition (by decide)

/-- C9 counterexample: `loadStage` on an unknown id returns false
BEFORE calling `cleanupCurrentStage`, so the previously loaded stage is
left fully loaded (NPC registry populated, background alive, stage still
current) — refuting "the previously loaded stage's state has been torn
down" for this failure mode. -/
theorem claim_C9_counterexample :
    (smLoaded.loadStage "no-such-stage").1 = false ∧
    (smLoaded.loadStage "no-such-stage").2 = smLoaded ∧
    smLoaded.npcIds = ["bartender"] ∧
    smLoaded.backgroundSprite = true ∧
    smLoaded.currentStage = some indoorStage := by
  have h := StageManagerState.loadStage_unknown smLoaded "no-such-stage" (by rfl)
  exact ⟨by rw [h], by rw [h], rfl, rfl, rfl⟩

/-- C9 (amended): `loadStage` has two failure modes with different
state effects.  An unknown stage id fails immediately with the entire
state unchanged (the prior stage remains loaded and current).  An
unresolvable background fails after teardown: the prior stage's
background and key sprite are gone and the NPC and overlay registries
are cleared.  In both modes no new stage becomes current
(`currentStage` is unchanged). -/
theorem claim_C9_loadStage_failure_modes :
    (∀ (sm : StageManagerState) (stageId : String),
      mapLookup sm.stages stageId = none →
      sm.loadStage stageId = (false, sm)) ∧
    (∀ (sm : StageManagerState) (stageId : String) (stage : Stage),
      mapLookup sm.stages stageId = some stage →
      sm.assets.contains stage.backgroundAssetKey = false →
      sm.loadStage stageId = (false, sm.cleanupCurrentStage) ∧
      sm.cleanupCurrentStage.backgroundSprite = false ∧
      sm.cleanupCurrentStage.keySprite = false ∧
      sm.cleanupCurrentStage.npcIds = [] ∧
      sm.cleanupCurrentStage.overlayIds = [] ∧
      sm.cleanupCurrentStage.currentStage = sm.currentStage) := by
  constructor
  · intro sm stageId h
    exact StageManagerState.loadStage_unknown sm stageId h
  · intro sm stageId stage hs hbg
    exact ⟨StageManagerState.loadStage_eq_cleanup sm stageId stage hs hbg,
      rfl, rfl, rfl, rfl, rfl⟩

/-- C9 witness: on `smBroken`, loading "nope" (unknown) fails with no
state change, and loading "broken" (background asset "missing" not
loaded) fails with the prior stage torn down and `currentStage`
unchanged. -/
theorem claim_C9_witness :
    smBroken.loadStage "nope" = (false, smBroken) ∧
    smBroken.loadStage "broken" = (false, smBroken.cleanupCurrentStage) ∧
    smBroken.cleanupCurrentStage.npcIds = [] ∧
    smBroken.cleanupCurrentStage.currentStage = smBroken.currentStage :=
  ⟨claim_C9_loadStage_failure_modes.1 smBroken "nope" (by rfl),
   (claim_C9_loadStage_failure_modes.2 smBroken "broken"
     { indoorStage with id := "broken", backgroundAssetKey := "missing" }
     (by rfl) (by rfl)).1,
   (claim_C9_loadStage_failure_modes.2 smBroken "broken"
     { indoorStage with id := "broken", backgroundAssetKey := "missing" }
     (by rfl) (by rfl)).2.2.2.1,
   (claim_C9_loadStage_failure_modes.2 smBroken "broken"
     { indoorStage with id := "broken", backgroundAssetKey := "missing" }
     (by rfl) (by rfl)).2.2.2.2.2⟩

/-! ## Depth-sorter lemmas -/

theorem drawIndex_cons {α : Type} [DecidableEq α] (f a : α) (rest : List α) :
    drawIndex a (f :: rest) = if f = a then 0 else drawIndex a rest + 1 := rfl

theorem removeFirst_cons (b c : Nat) (t : List Nat) :
    removeFirst c (b :: t) = if b = c then t else b :: removeFirst c t := rfl

theorem insertByY_perm (e : DepthSortableSprite) (l : List DepthSortableSprite) :
    List.Perm (insertByY e l) (e :: l) := by
  induction l with
  | nil => exact List.Perm.refl _
  | cons f rest ih =>
    unfold insertByY
    split
    · exact List.Perm.refl _
    · exact (List.Perm.cons f ih).trans (List.Perm.swap e f rest)

theorem sortByY_perm (l : List DepthSortableSprite) :
    List.Perm (sortByY l) l := by
  induction l with
  | nil => exact List.Perm.refl _
  | cons e rest ih =>
    exact (insertByY_perm e (sortByY rest)).trans (List.Perm.cons e ih)

theorem insertByY_pairwise (e : DepthSortableSprite) (l : List DepthSortableSprite)
    (h : l.Pairwise (fun a b => a.yPosition ≤ b.yPosition)) :
    (insertByY e l).Pairwise (fun a b => a.yPosition ≤ b.yPosition) := by
  induction l with
  | nil => simp [insertByY]
  | cons f rest ih =>
    unfold insertByY
    rw [List.pairwise_cons] at h
    split
    next hlt =>
      refine List.pairwise_cons.mpr ⟨?_, List.pairwise_cons.mpr h⟩
      intro x hx
      rcases List.mem_cons.mp hx with rfl | hx
      · exact le_of_lt hlt
      · exact le_trans (le_of_lt hlt) (h.1 x hx)
    next hge =>
      refine List.pairwise_cons.mpr ⟨?_, ih h.2⟩
      intro x hx
      have hx' : x ∈ e :: rest := (insertByY_perm e rest).mem_iff.mp hx
      rcases List.mem_cons.mp hx' with rfl | hx'
      · exact le_of_not_lt hge
      · exact h.1 x hx'

theorem sortByY_pairwise (l : List DepthSortableSprite) :
    (sortByY l).Pairwise (fun a b => a.yPosition ≤ b.yPosition) := by
  induction l with
  | nil => exact List.Pairwise.nil
  | cons e rest ih => exact insertByY_pairwise e (sortByY rest) ih

theorem sorted_drawIndex_lt :
    ∀ (l : List DepthSortableSprite),
      l.Pairwise (fun a b => a.yPosition ≤ b.yPosition) →
      ∀ a b : DepthSortableSprite, a ∈ l → b ∈ l →
      a.yPosition < b.yPosition →
      drawIndex a l < drawIndex b l := by
  intro l
  induction l with
  | nil => intro _ a b ha _ _; cases ha
  | cons f rest ih =>
    intro hs a b ha hb hab
    rw [List.pairwise_cons] at hs
    by_cases hfa : f = a
    · subst hfa
      have hbr : b ∈ rest := by
        rcases List.mem_cons.mp hb with rfl | h
        · exact absurd hab (lt_irrefl _)
        · exact h
      have hfb : f ≠ b := fun hcon => by
        rw [← hcon] at hab
        exact absurd hab (lt_irrefl _)
      rw [drawIndex_cons, drawIndex_cons, if_pos rfl, if_neg hfb]
      exact Nat.succ_pos _
    · by_cases hfb : f = b
      · subst hfb
        have har : a ∈ rest := by
          rcases List.mem_cons.mp ha with rfl | h
          · exact absurd rfl hfa
          · exact h
        have := hs.1 a har
        exact absurd hab (not_lt.mpr this)
      · have har : a ∈ rest := by
          rcases List.mem_cons.mp ha with rfl | h
          · exact absurd rfl hfa
          · exact h
        have hbr : b ∈ rest := by
          rcases List.mem_cons.mp hb with rfl | h
          · exact absurd rfl hfb
          · exact h
        rw [drawIndex_cons, drawIndex_cons, if_neg hfa, if_neg hfb]
        exact Nat.succ_lt_succ (ih hs.2 a b har hbr hab)

theorem drawIndex_map_sprite :
    ∀ (l : List DepthSortableSprite) (a : DepthSortableSprite),
      (l.map (fun e => e.sprite)).Nodup → a ∈ l →
      drawIndex a.sprite (l.map (fun e => e.sprite)) = drawIndex a l := by
  intro l
  induction l with
  | nil => intro a _ ha; cases ha
  | cons f rest ih =>
    intro a hnod ha
    rw [List.map_cons, drawIndex_cons, drawIndex_cons]
    by_cases hfa : f = a
    · rw [if_pos hfa, if_pos (by rw [hfa])]
    · have har : a ∈ rest := by
        rcases List.mem_cons.mp ha with rfl | h
        · exact absurd rfl hfa
        · exact h
      rw [List.map_cons, List.nodup_cons] at hnod
      have hfs : f.sprite ≠ a.sprite := by
        intro hcon
        exact hnod.1 (by rw [hcon]; exact List.mem_map_of_mem _ har)
      rw [if_neg hfs, if_neg hfa, ih a hnod.2 har]

theorem drawIndex_append_left {α : Type} [DecidableEq α] :
    ∀ (pre rest : List α) (a : α), a ∈ pre →
      drawIndex a (pre ++ rest) = drawIndex a pre := by
  intro pre
  induction pre with
  | nil => intro rest a ha; cases ha
  | cons b t ih =>
    intro rest a ha
    rw [List.cons_append, drawIndex_cons, drawIndex_cons]
    by_cases hba : b = a
    · rw [if_pos hba, if_pos hba]
    · have hat : a ∈ t := by
        rcases List.mem_cons.mp ha with rfl | h
        · exact absurd rfl hba
        · exact h
      rw [if_neg hba, if_neg hba, ih rest a hat]

theorem removeFirst_append_not_mem :
    ∀ (pre suffix : List Nat) (c : Nat), c ∉ pre →
      removeFirst c (pre ++ suffix) = pre ++ removeFirst c suffix := by
  intro pre
  induction pre with
  | nil => intro suffix c _; rfl
  | cons b t ih =>
    intro suffix c hc
    rw [List.cons_append, removeFirst_cons]
    rw [if_neg (fun h => hc (by rw [h]; exact List.mem_cons_self c t))]
    rw [ih suffix c (fun h => hc (List.mem_cons_of_mem b h))]
    rfl

theorem removeFirst_perm :
    ∀ (l : List Nat) (c : Nat), c ∈ l → List.Perm l (c :: removeFirst c l) := by
  intro l
  induction l with
  | nil => intro c hc; cases hc
  | cons b t ih =>
    intro c hc
    by_cases hbc : b = c
    · subst hbc
      rw [removeFirst_cons, if_pos rfl]
    · rw [removeFirst_cons, if_neg hbc]
      have hct : c ∈ t := by
        rcases List.mem_cons.mp hc with rfl | h
        · exact absurd rfl hbc
        · exact h
      exact (List.Perm.cons b (ih c hct)).trans (List.Perm.swap c b _)

theorem insertAt_append :
    ∀ (pre : List Nat) (c : Nat) (l : List Nat),
      insertAt pre.length c (pre ++ l) = pre ++ c :: l := by
  intro pre
  induction pre with
  | nil => intro c l; rfl
  | cons b t ih =>
    intro c l
    show b :: insertAt t.length c (t ++ l) = b :: (t ++ c :: l)
    rw [ih c l]

/-- Spine of the `setChildIndex` loop: when the already-placed prefix
`pre` is followed by the remaining children `suffix`, placing the
(distinct, all-in-`suffix`) visuals `vs` starting at index `pre.length`
yields `pre ++ vs ++ rest` for some `rest`, with `vs ++ rest` a
permutation of `suffix`. -/
theorem placeAll_spec :
    ∀ (vs pre suffix : List Nat),
      vs.Nodup → (∀ c ∈ vs, c ∈ suffix) → (pre ++ suffix).Nodup →
      ∃ rest, placeAll (pre ++ suffix) vs pre.length = pre ++ (vs ++ rest) ∧
        List.Perm (vs ++ rest) suffix := by
  intro vs
  induction vs with
  | nil =>
    intro pre suffix _ _ _
    exact ⟨suffix, rfl, List.Perm.refl _⟩
  | cons c vs ih =>
    intro pre suffix hnod hsub hps
    have hcsuf : c ∈ suffix := hsub c (List.mem_cons_self c vs)
    have hdisj := List.disjoint_of_nodup_append hps
    have hcpre : c ∉ pre := fun hc => hdisj hc hcsuf
    have hperm : List.Perm suffix (c :: removeFirst c suffix) :=
      removeFirst_perm suffix c hcsuf
    have heq1 : setChildIndex (pre ++ suffix) c pre.length =
        pre ++ c :: removeFirst c suffix := by
      unfold setChildIndex
      rw [removeFirst_append_not_mem pre suffix c hcpre, insertAt_append]
    rw [List.nodup_cons] at hnod
    have hsub2 : ∀ x ∈ vs, x ∈ removeFirst c suffix := by
      intro x hx
      have hxs : x ∈ suffix := hsub x (List.mem_cons_of_mem c hx)
      rcases List.mem_cons.mp (hperm.mem_iff.mp hxs) with rfl | h
      · exact absurd hx hnod.1
      · exact h
    have hshift : pre ++ c :: removeFirst c suffix =
        (pre ++ [c]) ++ removeFirst c suffix := by
      rw [List.append_assoc]
      rfl
    have hnodup2 : ((pre ++ [c]) ++ removeFirst c suffix).Nodup := by
      have hpermBig : List.Perm (pre ++ suffix)
          ((pre ++ [c]) ++ removeFirst c suffix) := by
        rw [← hshift]
        exact List.Perm.append_left pre hperm
      exact hpermBig.nodup_iff.mp hps
    obtain ⟨rest, hplace, hpr⟩ := ih (pre ++ [c]) (removeFirst c suffix) hnod.2 hsub2 hnodup2
    refine ⟨rest, ?_, ?_⟩
    · show placeAll (setChildIndex (pre ++ suffix) c pre.length) vs (pre.length + 1) =
        pre ++ ((c :: vs) ++ rest)
      rw [heq1, hshift]
      have h4 : pre.length + 1 = (pre ++ [c]).length := by simp
      rw [h4, hplace]
      rw [List.append_assoc]
      rfl
    · exact (List.Perm.cons c hpr).trans hperm.symm

theorem isValidSprite_congr (destroyed c1 c2 : List Nat)
    (h : ∀ x : Nat, x ∈ c1 ↔ x ∈ c2) (e : DepthSortableSprite) :
    isValidSprite destroyed c1 e = isValidSprite destroyed c2 e := by
  unfold isValidSprite
  congr 1
  by_cases hx : e.sprite ∈ c1
  · have hx2 : e.sprite ∈ c2 := (h _).mp hx
    simp [hx, hx2]
  · have hx2 : e.sprite ∉ c2 := fun hc => hx ((h _).mpr hc)
    simp [hx, hx2]

/-- `sortSprites` establishes the C3 property. -/
theorem sortSprites_outcome (destroyed : List Nat) (dm : DepthManager)
    (hchild : dm.children.Nodup)
    (hspr : (dm.sprites.map (fun e => e.sprite)).Nodup) :
    depthSortOutcome destroyed dm (DepthManager.sortSprites destroyed dm) := by
  have hperm_sorted : List.Perm (sortByY dm.sprites) dm.sprites := sortByY_perm dm.sprites
  have hpair_valid :
      ((sortByY dm.sprites).filter (isValidSprite destroyed dm.children)).Pairwise
        (fun a b => a.yPosition ≤ b.yPosition) :=
    (sortByY_pairwise dm.sprites).sublist (List.filter_sublist _)
  have hsorted_map_nodup :
      ((sortByY dm.sprites).map (fun e => e.sprite)).Nodup :=
    (hperm_sorted.map (fun (e : DepthSortableSprite) => e.sprite)).nodup_iff.mpr hspr
  have hvs_nodup :
      (((sortByY dm.sprites).filter (isValidSprite destroyed dm.children)).map
        (fun e => e.sprite)).Nodup :=
    ((List.filter_sublist _).map (fun (e : DepthSortableSprite) => e.sprite)).nodup
      hsorted_map_nodup
  have hvs_sub : ∀ c ∈ ((sortByY dm.sprites).filter
      (isValidSprite destroyed dm.children)).map (fun e => e.sprite),
      c ∈ dm.children := by
    intro c hc
    obtain ⟨e, he, rfl⟩ := List.mem_map.mp hc
    have hval := (List.mem_filter.mp he).2
    unfold isValidSprite at hval
    rw [Bool.and_eq_true] at hval
    simpa using hval.2
  obtain ⟨rest, hplace, hperm2⟩ :=
    placeAll_spec
      (((sortByY dm.sprites).filter (isValidSprite destroyed dm.children)).map
        (fun e => e.sprite))
      [] dm.children hvs_nodup hvs_sub (by simpa using hchild)
  have hch_eq : (DepthManager.sortSprites destroyed dm).children =
      (((sortByY dm.sprites).filter (isValidSprite destroyed dm.children)).map
        (fun e => e.sprite)) ++ rest := hplace
  have hchildren_perm :
      List.Perm (DepthManager.sortSprites destroyed dm).children dm.children := by
    rw [hch_eq]
    exact hperm2
  have hvalid_congr : ∀ e, isValidSprite destroyed
      (DepthManager.sortSprites destroyed dm).children e =
      isValidSprite destroyed dm.children e :=
    fun e => isValidSprite_congr destroyed
      (DepthManager.sortSprites destroyed dm).children dm.children
      (fun x => hchildren_perm.mem_iff) e
  have hsprites_eq : (DepthManager.sortSprites destroyed dm).sprites =
      dm.sprites.filter
        (isValidSprite destroyed (DepthManager.sortSprites destroyed dm).children) := rfl
  have hmem_sprites : ∀ e : DepthSortableSprite,
      e ∈ (DepthManager.sortSprites destroyed dm).sprites ↔
        (e ∈ dm.sprites ∧ isValidSprite destroyed dm.children e = true) := by
    intro e
    rw [hsprites_eq]
    rw [List.mem_filter]
    rw [hvalid_congr e]
  constructor
  · intro a b hamem hbmem hab
    have ha := hmem_sprites a |>.mp hamem
    have hb := hmem_sprites b |>.mp hbmem
    have haval : a ∈ (sortByY dm.sprites).filter (isValidSprite destroyed dm.children) :=
      List.mem_filter.mpr ⟨hperm_sorted.mem_iff.mpr ha.1, ha.2⟩
    have hbval : b ∈ (sortByY dm.sprites).filter (isValidSprite destroyed dm.children) :=
      List.mem_filter.mpr ⟨hperm_sorted.mem_iff.mpr hb.1, hb.2⟩
    have hamap : a.sprite ∈ ((sortByY dm.sprites).filter
        (isValidSprite destroyed dm.children)).map (fun e => e.sprite) :=
      List.mem_map_of_mem _ haval
    have hbmap : b.sprite ∈ ((sortByY dm.sprites).filter
        (isValidSprite destroyed dm.children)).map (fun e => e.sprite) :=
      List.mem_map_of_mem _ hbval
    rw [hch_eq]
    rw [drawIndex_append_left _ rest _ hamap, drawIndex_append_left _ rest _ hbmap]
    rw [drawIndex_map_sprite _ a hvs_nodup haval, drawIndex_map_sprite _ b hvs_nodup hbval]
    exact sorted_drawIndex_lt _ hpair_valid a b haval hbval hab
  · exact hmem_sprites

/-! ## Claim about the depth sorter -/

/-- C3: after `resortIfDirty()` (when the registry is dirty) and after
`forceResort()`, any two surviving registered entries are container-
ordered by their stored proxy Y (strictly smaller Y strictly earlier in
the draw order), and the registry is pruned to exactly its valid entries
(visual not destroyed and still a child of the managed container) — the
invalid entries are dropped rather than causing failure.  Hypotheses:
the container children and the registered visuals are duplicate-free, as
Pixi guarantees (a display object has at most one parent) and
registration by distinct ids maintains. -/
theorem claim_C3_resort_orders_by_y_and_prunes (destroyed : List Nat)
    (dm : DepthManager) (hchild : dm.children.Nodup)
    (hspr : (dm.sprites.map (fun e => e.sprite)).Nodup) :
    (dm.needsSort = true →
      depthSortOutcome destroyed dm (DepthManager.sortSpritesIfNeeded destroyed dm)) ∧
    depthSortOutcome destroyed dm (DepthManager.forceSortSprites destroyed dm) := by
  have houtcome := sortSprites_outcome destroyed dm hchild hspr
  constructor
  · intro hns
    unfold DepthManager.sortSpritesIfNeeded
    rw [hns]
    simp only [if_true]
    exact houtcome
  · unfold DepthManager.forceSortSprites DepthManager.sortSpritesIfNeeded
    simp only [if_true]
    exact houtcome

/-- C3 witness: on `depthDemo` (dirty registry; sprite 7 destroyed,
sprite 9 not a child), a forced resort draws the Y=2 entry (sprite 1)
before the Y=5 entry (sprite 3), and the destroyed entry is pruned. -/
theorem claim_C3_witness :
    drawIndex (1 : Nat) (DepthManager.forceSortSprites [7] depthDemo).children <
      drawIndex (3 : Nat) (DepthManager.forceSortSprites [7] depthDemo).children ∧
    (⟨7, 1, .object, "c"⟩ : DepthSortableSprite) ∉
      (DepthManager.forceSortSprites [7] depthDemo).sprites := by
  have h := claim_C3_resort_orders_by_y_and_prunes [7] depthDemo (by decide) (by decide)
  constructor
  · exact h.2.1 ⟨1, 2, .object, "b"⟩ ⟨3, 5, .npc, "a"⟩ (by decide) (by decide) (by decide)
  · intro hmem
    have hval := (h.2.2 ⟨7, 1, .object, "c"⟩).mp hmem
    revert hval
    decide

end Scumm
